import Mathlib

/-!
Shallow embedding of the wave-propagation worker (`src/waveWorker.js`) of the
fluidmotion repository, together with theorems settling the specification
claims about it.

Modelling conventions:
* JS numbers are modelled as rationals (`ℚ`); the floating-point NaN behaviour
  relevant to the NaN claim is modelled separately in the `JSF` namespace with
  an explicit NaN-aware value type.
* A `Float32Array` of interleaved x, y, z vertex positions is modelled as a
  `List ℚ`; `getZ`/`setZ` use the same `3 * i + 2` stride as the source.
  A typed-array store to an out-of-range index is a silent no-op, which is
  exactly the behaviour of `List.set`; an out-of-range typed-array read yields
  `undefined` (NaN under arithmetic) in JS, here `List.getD` yields the
  default `0` — the theorems below only evaluate in-range reads, except in the
  NaN model where the default is `JSF.JSVal.nan` to match JS.
* The worker's mutable module-level `state` object becomes an explicit
  `WorkerState` value threaded through the handlers.
* `state.pendingPointerEvents` is a JS `Map` keyed by the
  (rowIndex, columnIndex, vertexIndex) triple whose stored value is that same
  triple; it is modelled as an insertion-ordered duplicate-free list of
  triples (re-setting an existing key changes nothing, as in the source).
* A JS exception (the `TypeError` thrown when a pointer event names a
  missing subdivision, so that `state.sourcePositions[r][c]` is `undefined`)
  is modelled by `Option`: `none` means the handler threw.
-/

namespace WaveWorker

/-- A vertex-position (or color) buffer: a `Float32Array` of interleaved
x, y, z triples, modelled as a list of rationals. -/
abbrev Buffer := List ℚ

/-- A pending pointer event, as stored in `state.pendingPointerEvents`:
the subdivision row and column indices and the vertex index inside it. -/
structure PointerEvent where
  rowIndex : ℕ
  columnIndex : ℕ
  vertexIndex : ℕ
deriving DecidableEq, Repr

/-- The worker's module-level `state` object (`waveWorker.js` lines 1-27). -/
structure WorkerState where
  subdivisionRows : ℕ
  subdivisionColumns : ℕ
  columnsPerSubdivision : ℕ
  rowsPerSubdivision : ℕ
  minVertexDepth : ℚ
  maxVertexDepth : ℚ
  baseVertexDepth : ℚ
  vertexDepthRange : ℚ
  waveDampingFactor : ℚ
  sourcePositions : List (List Buffer)
  resultPositions : List (List Buffer)
  resetRequested : Bool
  pendingPointerEvents : List PointerEvent
deriving DecidableEq, Repr

/-- The initial value of the `state` object before any message is received. -/
def initialState : WorkerState :=
  { subdivisionRows := 0
    subdivisionColumns := 0
    columnsPerSubdivision := 0
    rowsPerSubdivision := 0
    minVertexDepth := 0
    maxVertexDepth := 0
    baseVertexDepth := 0
    vertexDepthRange := 0
    waveDampingFactor := 99 / 100
    sourcePositions := []
    resultPositions := []
    resetRequested := false
    pendingPointerEvents := [] }

/-- The payload of an `init` message (`workerInterface.ts`). -/
structure InitData where
  subdivisionRows : ℕ
  subdivisionColumns : ℕ
  columnsPerSubdivision : ℕ
  rowsPerSubdivision : ℕ
  minVertexDepth : ℚ
  maxVertexDepth : ℚ
  waveDampingFactor : ℚ
  vertexPositionTemplate : Buffer
deriving Repr

/-- The payload of a `result` message posted back to the consumer:
per-subdivision position and color arrays, indexed by row then column. -/
structure FrameResult where
  vertexPositions : List (List Buffer)
  vertexColors : List (List Buffer)
deriving DecidableEq, Repr

/-- Embeds `fns.getZ`: read the z component of a vertex, at offset
`vertexIndex * 3 + 2` of the interleaved buffer. -/
def getZ (positions : Buffer) (vertexIndex : ℕ) : ℚ :=
  positions.getD (vertexIndex * 3 + 2) 0

/-- Embeds `fns.setZ`: write the z component of a vertex. An out-of-range store on a
`Float32Array` is silently ignored, exactly as `List.set` is. -/
def setZ (positions : Buffer) (vertexIndex : ℕ) (value : ℚ) : Buffer :=
  positions.set (vertexIndex * 3 + 2) value

/-- Embeds `fns.getScaledColor`: the normalized color scale of a vertex depth. -/
def getScaledColor (s : WorkerState) (positions : Buffer) (vertexIndex : ℕ) : ℚ :=
  (getZ positions vertexIndex - s.minVertexDepth) / s.vertexDepthRange

/-- Look up the buffer of subdivision `(R, C)` in a nested positions array. -/
def tileAt (grid : List (List Buffer)) (R C : ℕ) : Buffer :=
  (grid.getD R []).getD C []

/-- Replace the buffer of subdivision `(R, C)` in a nested positions array
(no-op when the row index is out of range, as for `List.set`). -/
def setTile (grid : List (List Buffer)) (R C : ℕ) (b : Buffer) : List (List Buffer) :=
  grid.set R ((grid.getD R []).set C b)

/-- Embeds `const vertexCount = state.rowsPerSubdivision * state.columnsPerSubdivision`
(`handleReady` line 105). -/
def vertexCount (s : WorkerState) : ℕ :=
  s.rowsPerSubdivision * s.columnsPerSubdivision

/-- Embeds `fns.handleInit` (lines 43-71): store the configuration, derive the base
depth and depth range, allocate one copy of the template per subdivision, and
clear the pending pointer events. Modelled for initialization from the pristine
state (a re-initialization over a previously larger grid would also leave stale
rows behind in the source; no claim depends on re-initialization). -/
def handleInit (s : WorkerState) (data : InitData) : WorkerState :=
  { s with
    subdivisionRows := data.subdivisionRows
    subdivisionColumns := data.subdivisionColumns
    columnsPerSubdivision := data.columnsPerSubdivision
    rowsPerSubdivision := data.rowsPerSubdivision
    minVertexDepth := data.minVertexDepth
    maxVertexDepth := data.maxVertexDepth
    baseVertexDepth := data.minVertexDepth + (data.maxVertexDepth - data.minVertexDepth) / 2
    vertexDepthRange := data.maxVertexDepth - data.minVertexDepth
    waveDampingFactor := data.waveDampingFactor
    resetRequested := false
    sourcePositions :=
      List.replicate data.subdivisionRows
        (List.replicate data.subdivisionColumns data.vertexPositionTemplate)
    resultPositions :=
      List.replicate data.subdivisionRows
        (List.replicate data.subdivisionColumns data.vertexPositionTemplate)
    pendingPointerEvents := [] }

/-- Embeds `fns.handleReset` (lines 76-79): flag the reset and drop pending events. -/
def handleReset (s : WorkerState) : WorkerState :=
  { s with resetRequested := true, pendingPointerEvents := [] }

/-- Embeds `fns.handlePointer` (lines 84-99): discard the event while a reset is
pending, otherwise record it keyed by its (row, column, vertex) triple;
re-setting an existing key leaves the map unchanged since the stored value is
the key triple itself. -/
def handlePointer (s : WorkerState) (e : PointerEvent) : WorkerState :=
  if s.resetRequested then s
  else if e ∈ s.pendingPointerEvents then s
  else { s with pendingPointerEvents := s.pendingPointerEvents ++ [e] }

/-- One iteration of the pointer-event loop of `handleReady` (lines 112-121):
set the source z of the event's vertex to the minimum depth and its result z
to the maximum depth. When the event names a missing subdivision the JS code
throws a `TypeError` (`state.sourcePositions[r][c]` is `undefined`), modelled
as `none`. -/
def applyPointerEvent (s : WorkerState) (e : PointerEvent) : Option WorkerState :=
  match (s.sourcePositions[e.rowIndex]?).bind (fun row => row[e.columnIndex]?),
        (s.resultPositions[e.rowIndex]?).bind (fun row => row[e.columnIndex]?) with
  | some sourcePositions, some resultPositions =>
    some { s with
      sourcePositions := setTile s.sourcePositions e.rowIndex e.columnIndex
        (setZ sourcePositions e.vertexIndex s.minVertexDepth)
      resultPositions := setTile s.resultPositions e.rowIndex e.columnIndex
        (setZ resultPositions e.vertexIndex s.maxVertexDepth) }
  | _, _ => none

/-- The pointer-event drain of `handleReady` (lines 110-123): skipped entirely
when a reset is pending; the queue is cleared unconditionally afterwards. -/
def drainPointerEvents (s : WorkerState) : Option WorkerState := do
  let s1 ←
    if s.resetRequested then pure s
    else s.pendingPointerEvents.foldlM applyPointerEvent s
  pure { s1 with pendingPointerEvents := [] }

/-- Embeds `const relativeColumnIdx = vertexIdx % state.rowsPerSubdivision`
(line 142, reproduced exactly: the modulus really is `rowsPerSubdivision`). -/
def relativeColumnIdx (s : WorkerState) (vertexIdx : ℕ) : ℕ :=
  vertexIdx % s.rowsPerSubdivision

/-- Embeds `const relativeRowIdx = Math.floor(vertexIdx / state.columnsPerSubdivision)`
(line 143). -/
def relativeRowIdx (s : WorkerState) (vertexIdx : ℕ) : ℕ :=
  vertexIdx / s.columnsPerSubdivision

/-- Contribution of the row above (lines 149-159): in-tile when not on the
first row, otherwise the bottom row of the subdivision above when one exists. -/
def aboveContribution (s : WorkerState) (subRowIdx subColIdx vertexIdx : ℕ) : ℚ :=
  if relativeRowIdx s vertexIdx > 0 then
    getZ (tileAt s.sourcePositions subRowIdx subColIdx) (vertexIdx - s.columnsPerSubdivision)
  else if subRowIdx > 0 then
    getZ (tileAt s.sourcePositions (subRowIdx - 1) subColIdx)
      (vertexIdx + s.columnsPerSubdivision * (s.rowsPerSubdivision - 1))
  else 0

/-- Contribution of the row below (lines 162-172): in-tile when not on the
last row, otherwise the top row of the subdivision below when one exists. -/
def belowContribution (s : WorkerState) (subRowIdx subColIdx vertexIdx : ℕ) : ℚ :=
  if relativeRowIdx s vertexIdx < s.rowsPerSubdivision - 1 then
    getZ (tileAt s.sourcePositions subRowIdx subColIdx) (vertexIdx + s.columnsPerSubdivision)
  else if subRowIdx < s.subdivisionRows - 1 then
    getZ (tileAt s.sourcePositions (subRowIdx + 1) subColIdx)
      (vertexIdx % s.columnsPerSubdivision)
  else 0

/-- Contribution of the column on the left (lines 175-184). -/
def leftContribution (s : WorkerState) (subRowIdx subColIdx vertexIdx : ℕ) : ℚ :=
  if relativeColumnIdx s vertexIdx > 0 then
    getZ (tileAt s.sourcePositions subRowIdx subColIdx) (vertexIdx - 1)
  else if subColIdx > 0 then
    getZ (tileAt s.sourcePositions subRowIdx (subColIdx - 1))
      (vertexIdx + (s.columnsPerSubdivision - 1))
  else 0

/-- Contribution of the column on the right (lines 187-196). -/
def rightContribution (s : WorkerState) (subRowIdx subColIdx vertexIdx : ℕ) : ℚ :=
  if relativeColumnIdx s vertexIdx < s.columnsPerSubdivision - 1 then
    getZ (tileAt s.sourcePositions subRowIdx subColIdx) (vertexIdx + 1)
  else if subColIdx < s.subdivisionColumns - 1 then
    getZ (tileAt s.sourcePositions subRowIdx (subColIdx + 1))
      (vertexIdx - (s.columnsPerSubdivision - 1))
  else 0

/-- Embeds `adjacentTotal` (lines 146-196): the accumulated sum of the up-to-four
contributions, all read from the source buffers. -/
def adjacentTotal (s : WorkerState) (subRowIdx subColIdx vertexIdx : ℕ) : ℚ :=
  aboveContribution s subRowIdx subColIdx vertexIdx
    + belowContribution s subRowIdx subColIdx vertexIdx
    + leftContribution s subRowIdx subColIdx vertexIdx
    + rightContribution s subRowIdx subColIdx vertexIdx

namespace SpecModel

/-- Modelled from the spec, not the source: the row-major within-tile column
of a cell, `index mod columns` (spec §3 "index = row·columns + column",
§4.2 step 1). This is the specification-side counterpart of the source's
`relativeColumnIdx` (line 142), which divides by `rowsPerSubdivision`
instead; the two coincide exactly on square tiles. -/
def relativeColumnIdx (s : WorkerState) (vertexIdx : ℕ) : ℕ :=
  vertexIdx % s.columnsPerSubdivision

/-- Modelled from the spec: the depth of the upward neighbor — in-tile when
not on the first row, otherwise the mirrored bottom-row cell at the same
column offset of the tile above, omitted (zero contribution) at the grid
edge (spec §4.2 steps 2-4). -/
def aboveDepth (s : WorkerState) (subRowIdx subColIdx vertexIdx : ℕ) : ℚ :=
  if vertexIdx / s.columnsPerSubdivision > 0 then
    getZ (tileAt s.sourcePositions subRowIdx subColIdx) (vertexIdx - s.columnsPerSubdivision)
  else if subRowIdx > 0 then
    getZ (tileAt s.sourcePositions (subRowIdx - 1) subColIdx)
      (vertexIdx + s.columnsPerSubdivision * (s.rowsPerSubdivision - 1))
  else 0

/-- Modelled from the spec: the depth of the downward neighbor — in-tile when
not on the last row, otherwise the mirrored top-row cell of the tile below,
omitted at the grid edge. -/
def belowDepth (s : WorkerState) (subRowIdx subColIdx vertexIdx : ℕ) : ℚ :=
  if vertexIdx / s.columnsPerSubdivision < s.rowsPerSubdivision - 1 then
    getZ (tileAt s.sourcePositions subRowIdx subColIdx) (vertexIdx + s.columnsPerSubdivision)
  else if subRowIdx < s.subdivisionRows - 1 then
    getZ (tileAt s.sourcePositions (subRowIdx + 1) subColIdx)
      (vertexIdx % s.columnsPerSubdivision)
  else 0

/-- Modelled from the spec: the depth of the leftward neighbor — in-tile when
the row-major column is positive, otherwise the mirrored rightmost-column
cell of the tile to the left, omitted at the grid edge. -/
def leftDepth (s : WorkerState) (subRowIdx subColIdx vertexIdx : ℕ) : ℚ :=
  if relativeColumnIdx s vertexIdx > 0 then
    getZ (tileAt s.sourcePositions subRowIdx subColIdx) (vertexIdx - 1)
  else if subColIdx > 0 then
    getZ (tileAt s.sourcePositions subRowIdx (subColIdx - 1))
      (vertexIdx + (s.columnsPerSubdivision - 1))
  else 0

/-- Modelled from the spec: the depth of the rightward neighbor — in-tile
when the row-major column is not the last, otherwise the mirrored
leftmost-column cell of the tile to the right, omitted at the grid edge. -/
def rightDepth (s : WorkerState) (subRowIdx subColIdx vertexIdx : ℕ) : ℚ :=
  if relativeColumnIdx s vertexIdx < s.columnsPerSubdivision - 1 then
    getZ (tileAt s.sourcePositions subRowIdx subColIdx) (vertexIdx + 1)
  else if subColIdx < s.subdivisionColumns - 1 then
    getZ (tileAt s.sourcePositions subRowIdx (subColIdx + 1))
      (vertexIdx - (s.columnsPerSubdivision - 1))
  else 0

/-- Modelled from the spec (§4.2, §4.3): the sum of the up-to-four neighbor
depths of a cell under the row-major layout, read from the source buffers,
cross-tile neighbors resolved through the adjacent tile's mirrored edge cell
and missing neighbors omitted. This is the `S` of the atomic-update claim,
to be compared with the source's `adjacentTotal`. -/
def neighborSum (s : WorkerState) (subRowIdx subColIdx vertexIdx : ℕ) : ℚ :=
  aboveDepth s subRowIdx subColIdx vertexIdx
    + belowDepth s subRowIdx subColIdx vertexIdx
    + leftDepth s subRowIdx subColIdx vertexIdx
    + rightDepth s subRowIdx subColIdx vertexIdx

end SpecModel

/-- The per-cell update formula of lines 199-202, abstracted over the value
`v` read back from the result buffer:
clamp `adjacentTotal / 2 - v` to the depth bounds, then apply damping. -/
def cellFormula (s : WorkerState) (subRowIdx subColIdx vertexIdx : ℕ) (v : ℚ) : ℚ :=
  min s.maxVertexDepth (max s.minVertexDepth
    (adjacentTotal s subRowIdx subColIdx vertexIdx / 2 - v)) * s.waveDampingFactor

/-- The new z value stored at a cell (lines 199-203): the update formula
applied to the current result-buffer value of that same cell. -/
def newCellZ (s : WorkerState) (subRowIdx subColIdx vertexIdx : ℕ) : ℚ :=
  cellFormula s subRowIdx subColIdx vertexIdx
    (getZ (tileAt s.resultPositions subRowIdx subColIdx) vertexIdx)

/-- The body of the vertex loop of `handleReady` (lines 133-204): when a reset
is pending write the base depth into both buffers, otherwise store the new
cell value into the result buffer. -/
def propagateCell (s : WorkerState) (subRowIdx subColIdx vertexIdx : ℕ) : WorkerState :=
  if s.resetRequested then
    { s with
      sourcePositions := setTile s.sourcePositions subRowIdx subColIdx
        (setZ (tileAt s.sourcePositions subRowIdx subColIdx) vertexIdx s.baseVertexDepth)
      resultPositions := setTile s.resultPositions subRowIdx subColIdx
        (setZ (tileAt s.resultPositions subRowIdx subColIdx) vertexIdx s.baseVertexDepth) }
  else
    { s with
      resultPositions := setTile s.resultPositions subRowIdx subColIdx
        (setZ (tileAt s.resultPositions subRowIdx subColIdx) vertexIdx
          (newCellZ s subRowIdx subColIdx vertexIdx)) }

/-- The vertex loop of `handleReady` for one subdivision (lines 133-204). -/
def propagateTile (s : WorkerState) (subRowIdx subColIdx : ℕ) : WorkerState :=
  (List.range (vertexCount s)).foldl
    (fun s3 vertexIdx => propagateCell s3 subRowIdx subColIdx vertexIdx) s

/-- The full propagation pass of `handleReady` (lines 126-206): every
subdivision in row-major order. -/
def propagate (s : WorkerState) : WorkerState :=
  (List.range s.subdivisionRows).foldl
    (fun s1 subRowIdx =>
      (List.range s.subdivisionColumns).foldl
        (fun s2 subColIdx => propagateTile s2 subRowIdx subColIdx) s1) s

/-- The color-array generation loop for one subdivision (lines 233-240):
for each vertex append the scaled color twice and a fixed blue channel. -/
def colorArrayFor (s : WorkerState) (positionArray : Buffer) (count : ℕ) : Buffer :=
  (List.range count).foldl
    (fun colorArray vertexIndex =>
      colorArray ++ [getScaledColor s positionArray vertexIndex,
                     getScaledColor s positionArray vertexIndex, 1]) []

/-- The message-building and buffer-swap loop of `handleReady` (lines 208-253):
for each subdivision copy the result positions into the outgoing message,
derive its colors, then swap that subdivision's source and result buffers;
finally clear the reset flag. -/
def buildMessageAndSwap (s : WorkerState) : WorkerState × FrameResult :=
  let count := vertexCount s
  let outer :=
    (List.range s.subdivisionRows).foldl
      (fun (acc : WorkerState × List (List Buffer) × List (List Buffer)) subRowIdx =>
        let inner :=
          (List.range s.subdivisionColumns).foldl
            (fun (acc2 : WorkerState × List Buffer × List Buffer) subColIdx =>
              let st := acc2.1
              let resultPositions := tileAt st.resultPositions subRowIdx subColIdx
              let positionArray := resultPositions
              let colorArray := colorArrayFor st positionArray count
              let st2 := { st with
                resultPositions := setTile st.resultPositions subRowIdx subColIdx
                  (tileAt st.sourcePositions subRowIdx subColIdx)
                sourcePositions := setTile st.sourcePositions subRowIdx subColIdx
                  resultPositions }
              (st2, acc2.2.1 ++ [positionArray], acc2.2.2 ++ [colorArray]))
            (acc.1, [], [])
        (inner.1, acc.2.1 ++ [inner.2.1], acc.2.2 ++ [inner.2.2]))
      (s, [], [])
  ({ outer.1 with resetRequested := false },
   { vertexPositions := outer.2.1, vertexColors := outer.2.2 })

/-- Embeds `fns.handleReady` (lines 104-257): drain pointer events, propagate, then
build the result message and swap buffers. `none` models the `TypeError`
thrown when a pending pointer event names a missing subdivision. -/
def handleReady (s : WorkerState) : Option (WorkerState × FrameResult) := do
  let s1 ← drainPointerEvents s
  pure (buildMessageAndSwap (propagate s1))

/-- Structural well-formedness of an initialized grid: the nested position
arrays have exactly the declared numbers of subdivision rows and columns, and
every buffer has exactly `3 * vertexCount` entries. `handleInit` establishes
this whenever the template length matches the declared dimensions. -/
def WellFormed (s : WorkerState) : Prop :=
  s.sourcePositions.length = s.subdivisionRows ∧
  s.resultPositions.length = s.subdivisionRows ∧
  (∀ R < s.subdivisionRows,
    (s.sourcePositions.getD R []).length = s.subdivisionColumns ∧
    (s.resultPositions.getD R []).length = s.subdivisionColumns ∧
    ∀ C < s.subdivisionColumns,
      (tileAt s.sourcePositions R C).length = 3 * vertexCount s ∧
      (tileAt s.resultPositions R C).length = 3 * vertexCount s)

instance (s : WorkerState) : Decidable (WellFormed s) := by
  unfold WellFormed; infer_instance

/-!
The in-place z-sweep of a single buffer, and the facts that it writes every
cell from the buffer's pre-sweep value and leaves untouched indices alone.
-/

/-- In-place left-to-right update of the first `n` z cells of a buffer, each
new value computed by `F` from the cell index and the value currently stored
at that same cell. -/
def sweepBuf (F : ℕ → ℚ → ℚ) (b : Buffer) (n : ℕ) : Buffer :=
  (List.range n).foldl (fun acc i => setZ acc i (F i (getZ acc i))) b

/-!
Replacing a family of tiles in a nested grid, one row prefix at a time.
These folds are the normal forms of the propagation loops: every replacement
buffer `B R C` is a function of the pre-sweep state only, which is what makes
the sequential sweep an atomic update.
-/

/-- Replace tiles `(R, 0) … (R, m-1)` of `g` by `B R 0 … B R (m-1)`. -/
def rowFoldTiles (B : ℕ → ℕ → Buffer) (g : List (List Buffer)) (R m : ℕ) :
    List (List Buffer) :=
  (List.range m).foldl (fun g2 C => setTile g2 R C (B R C)) g

/-- Replace all tiles of rows `0 … k-1` (each of width `cols`) of `g`. -/
def gridFoldTiles (B : ℕ → ℕ → Buffer) (g : List (List Buffer)) (k cols : ℕ) :
    List (List Buffer) :=
  (List.range k).foldl (fun g2 R => rowFoldTiles B g2 R cols) g

/-- The pre-sweep value of the tile at `(R, C)` after a full non-reset sweep:
every z cell updated by the cell formula from the pre-sweep state. -/
def newTile (s : WorkerState) (R C : ℕ) : Buffer :=
  sweepBuf (cellFormula s R C) (tileAt s.resultPositions R C) (vertexCount s)

/-!
Normal form of the propagation pass when a reset is pending: every z cell of
every tile of both buffers is overwritten with the base depth.
-/

/-- The source tile at `(R, C)` after a reset sweep. -/
def resetSourceTile (s : WorkerState) (R C : ℕ) : Buffer :=
  sweepBuf (fun _ _ => s.baseVertexDepth) (tileAt s.sourcePositions R C) (vertexCount s)

/-- The result tile at `(R, C)` after a reset sweep. -/
def resetResultTile (s : WorkerState) (R C : ℕ) : Buffer :=
  sweepBuf (fun _ _ => s.baseVertexDepth) (tileAt s.resultPositions R C) (vertexCount s)

/-- The tile lookups performed by one iteration of the pointer loop both
succeed. -/
def InRangeTile (s : WorkerState) (e : PointerEvent) : Prop :=
  e.rowIndex < s.sourcePositions.length ∧
  e.columnIndex < (s.sourcePositions.getD e.rowIndex []).length ∧
  e.rowIndex < s.resultPositions.length ∧
  e.columnIndex < (s.resultPositions.getD e.rowIndex []).length

/-- The state after one successful iteration of the pointer loop: the event's
source z set to the minimum depth, its result z set to the maximum depth. -/
def pushCell (s : WorkerState) (e : PointerEvent) : WorkerState :=
  { s with
    sourcePositions := setTile s.sourcePositions e.rowIndex e.columnIndex
      (setZ (tileAt s.sourcePositions e.rowIndex e.columnIndex) e.vertexIndex
        s.minVertexDepth)
    resultPositions := setTile s.resultPositions e.rowIndex e.columnIndex
      (setZ (tileAt s.resultPositions e.rowIndex e.columnIndex) e.vertexIndex
        s.maxVertexDepth) }

/-- The configuration fields and the entire nested-array shape shared by a
state and any state obtained from it by in-place depth writes. -/
def SameShape (s s2 : WorkerState) : Prop :=
  s2.subdivisionRows = s.subdivisionRows ∧
  s2.subdivisionColumns = s.subdivisionColumns ∧
  s2.columnsPerSubdivision = s.columnsPerSubdivision ∧
  s2.rowsPerSubdivision = s.rowsPerSubdivision ∧
  s2.minVertexDepth = s.minVertexDepth ∧
  s2.maxVertexDepth = s.maxVertexDepth ∧
  s2.baseVertexDepth = s.baseVertexDepth ∧
  s2.waveDampingFactor = s.waveDampingFactor ∧
  s2.resetRequested = s.resetRequested ∧
  s2.sourcePositions.length = s.sourcePositions.length ∧
  s2.resultPositions.length = s.resultPositions.length ∧
  (∀ R', (s2.sourcePositions.getD R' []).length = (s.sourcePositions.getD R' []).length) ∧
  (∀ R', (s2.resultPositions.getD R' []).length = (s.resultPositions.getD R' []).length) ∧
  (∀ R C, (tileAt s2.sourcePositions R C).length = (tileAt s.sourcePositions R C).length) ∧
  (∀ R C, (tileAt s2.resultPositions R C).length = (tileAt s.resultPositions R C).length)

/-!
Concrete configurations used by the witnesses and counterexamples.
-/

/-- The §8 disturbance-kick configuration: one 4×4 tile, depth bounds ±1,
damping 0.9, flat (all-zero, baseline-depth) template. -/
def kickInit : InitData :=
  { subdivisionRows := 1
    subdivisionColumns := 1
    columnsPerSubdivision := 4
    rowsPerSubdivision := 4
    minVertexDepth := -1
    maxVertexDepth := 1
    waveDampingFactor := 9 / 10
    vertexPositionTemplate := List.replicate 48 0 }

/-- The kick scenario after `init` and a `pointer` message at cell 5. -/
def kickState : WorkerState :=
  handlePointer (handleInit initialState kickInit) ⟨0, 0, 5⟩

/-- The kick scenario after the drain, i.e. the pre-sweep state. -/
def kickDrained : WorkerState :=
  (drainPointerEvents kickState).getD kickState

/-- A configuration with strictly positive depth bounds (`[2, 4]`, baseline 3):
legal to request, but the damped clamp then undershoots the minimum. -/
def badBoundsInit : InitData :=
  { subdivisionRows := 1
    subdivisionColumns := 1
    columnsPerSubdivision := 1
    rowsPerSubdivision := 1
    minVertexDepth := 2
    maxVertexDepth := 4
    waveDampingFactor := 9 / 10
    vertexPositionTemplate := [0, 0, 3] }

def badBoundsState : WorkerState :=
  handleInit initialState badBoundsInit

/-- A non-square tile: 2 cell rows × 3 cell columns, z values 0, 1, 2, 3, 4, 5
in row-major order. Cell 2 is the top-right corner: its row-major neighbors
are cell 5 (below) and cell 1 (left). -/
def c4Init : InitData :=
  { subdivisionRows := 1
    subdivisionColumns := 1
    columnsPerSubdivision := 3
    rowsPerSubdivision := 2
    minVertexDepth := -10
    maxVertexDepth := 10
    waveDampingFactor := 1
    vertexPositionTemplate := [0, 0, 0, 0, 0, 1, 0, 0, 2, 0, 0, 3, 0, 0, 4, 0, 0, 5] }

def c4State : WorkerState :=
  handleInit initialState c4Init

/-- A 4×4 tile template with z value `j` at cell `j`. -/
def c5TemplateA : Buffer :=
  (List.range 16).foldl (fun b j => b ++ [0, 0, (j : ℚ)]) []

/-- A 4×4 tile template with z value `100 + j` at cell `j`. -/
def c5TemplateB : Buffer :=
  (List.range 16).foldl (fun b j => b ++ [0, 0, (100 + j : ℚ)]) []

/-- A 2×1 subdivision grid of 4×4 tiles whose two source tiles carry
distinguishable depth values. -/
def c5State : WorkerState :=
  { handleInit initialState
      { subdivisionRows := 2
        subdivisionColumns := 1
        columnsPerSubdivision := 4
        rowsPerSubdivision := 4
        minVertexDepth := -1
        maxVertexDepth := 1
        waveDampingFactor := 9 / 10
        vertexPositionTemplate := c5TemplateA } with
    sourcePositions := [[c5TemplateA], [c5TemplateB]] }

/-- An `init` whose template (one vertex, 3 floats) does not match the
declared 2×2 = 4 vertices (12 floats) per tile. -/
def badSizeInit : InitData :=
  { subdivisionRows := 1
    subdivisionColumns := 1
    columnsPerSubdivision := 2
    rowsPerSubdivision := 2
    minVertexDepth := -1
    maxVertexDepth := 1
    waveDampingFactor := 9 / 10
    vertexPositionTemplate := [0, 0, 7] }

/-- The kick configuration after a `pointer` message naming subdivision row 5
of a 1×1 subdivision grid. -/
def oobTileState : WorkerState :=
  handlePointer (handleInit initialState kickInit) ⟨5, 0, 0⟩

/-- The kick configuration freshly initialized (no pending events). -/
def freshKickState : WorkerState :=
  handleInit initialState kickInit

end WaveWorker

/-!
A NaN-aware model of the sweep core (`waveWorker.js` lines 141-203) with JS
number semantics: the worker stores IEEE floats, and `Math.min`/`Math.max`
return NaN whenever an argument is NaN, so the clamp of lines 199-202 does not
filter NaN out. This model is used to settle the NaN claim; the rational-valued
model above covers the NaN-free claims.
-/

namespace JSF

/-!
A NaN-aware model of the sweep core (`waveWorker.js` lines 141-203) with JS
number semantics: the worker stores IEEE floats, and `Math.min`/`Math.max`
return NaN whenever an argument is NaN, so the clamp of lines 199-202 does not
filter NaN out. This model is used to settle the NaN claim; the rational-valued
model above covers the NaN-free claims.
-/

/-- A JS number: NaN, or an ordinary (rational-modelled) value. Infinities are
not needed by the theorems below and are omitted. -/
inductive JSVal where
  | nan : JSVal
  | num : ℚ → JSVal
deriving DecidableEq, Repr

/-- JS addition: NaN is absorbing. -/
def jsAdd : JSVal → JSVal → JSVal
  | JSVal.num a, JSVal.num b => JSVal.num (a + b)
  | _, _ => JSVal.nan

/-- JS subtraction: NaN is absorbing. -/
def jsSub : JSVal → JSVal → JSVal
  | JSVal.num a, JSVal.num b => JSVal.num (a - b)
  | _, _ => JSVal.nan

/-- JS division by the literal 2.0 (`adjacentTotal / 2.0`). -/
def jsDiv2 : JSVal → JSVal
  | JSVal.num a => JSVal.num (a / 2)
  | JSVal.nan => JSVal.nan

/-- JS multiplication: NaN is absorbing. -/
def jsMul : JSVal → JSVal → JSVal
  | JSVal.num a, JSVal.num b => JSVal.num (a * b)
  | _, _ => JSVal.nan

/-- JS `Math.min`: returns NaN when either argument is NaN. -/
def jsMin : JSVal → JSVal → JSVal
  | JSVal.num a, JSVal.num b => JSVal.num (min a b)
  | _, _ => JSVal.nan

/-- JS `Math.max`: returns NaN when either argument is NaN. -/
def jsMax : JSVal → JSVal → JSVal
  | JSVal.num a, JSVal.num b => JSVal.num (max a b)
  | _, _ => JSVal.nan

/-- A `Float32Array` of JS numbers. -/
abbrev JSBuffer := List JSVal

/-- Embeds `fns.getZ` under JS semantics; an out-of-range read gives `undefined`,
which behaves as NaN under every arithmetic operation above. -/
def getZ (positions : JSBuffer) (vertexIndex : ℕ) : JSVal :=
  positions.getD (vertexIndex * 3 + 2) JSVal.nan

/-- Embeds `fns.setZ` under JS semantics (out-of-range store ignored). -/
def setZ (positions : JSBuffer) (vertexIndex : ℕ) (value : JSVal) : JSBuffer :=
  positions.set (vertexIndex * 3 + 2) value

/-- Tile lookup in a nested JS positions array. -/
def tileAt (grid : List (List JSBuffer)) (R C : ℕ) : JSBuffer :=
  (grid.getD R []).getD C []

/-- Tile replacement in a nested JS positions array. -/
def setTile (grid : List (List JSBuffer)) (R C : ℕ) (b : JSBuffer) : List (List JSBuffer) :=
  grid.set R ((grid.getD R []).set C b)

/-- The slice of the worker state that the sweep core reads, with JS-number
buffers. The configuration scalars are ordinary numbers. -/
structure JSState where
  subdivisionRows : ℕ
  subdivisionColumns : ℕ
  columnsPerSubdivision : ℕ
  rowsPerSubdivision : ℕ
  minVertexDepth : ℚ
  maxVertexDepth : ℚ
  baseVertexDepth : ℚ
  waveDampingFactor : ℚ
  sourcePositions : List (List JSBuffer)
  resultPositions : List (List JSBuffer)
deriving Repr

/-- Line 142, as in the rational model. -/
def relativeColumnIdx (s : JSState) (vertexIdx : ℕ) : ℕ :=
  vertexIdx % s.rowsPerSubdivision

/-- Line 143. -/
def relativeRowIdx (s : JSState) (vertexIdx : ℕ) : ℕ :=
  vertexIdx / s.columnsPerSubdivision

/-- Lines 149-159 under JS semantics; an absent neighbor contributes the
additive unit `num 0` (the accumulator starts at 0.0 and is not modified). -/
def aboveContribution (s : JSState) (subRowIdx subColIdx vertexIdx : ℕ) : JSVal :=
  if relativeRowIdx s vertexIdx > 0 then
    getZ (tileAt s.sourcePositions subRowIdx subColIdx) (vertexIdx - s.columnsPerSubdivision)
  else if subRowIdx > 0 then
    getZ (tileAt s.sourcePositions (subRowIdx - 1) subColIdx)
      (vertexIdx + s.columnsPerSubdivision * (s.rowsPerSubdivision - 1))
  else JSVal.num 0

/-- Lines 162-172 under JS semantics. -/
def belowContribution (s : JSState) (subRowIdx subColIdx vertexIdx : ℕ) : JSVal :=
  if relativeRowIdx s vertexIdx < s.rowsPerSubdivision - 1 then
    getZ (tileAt s.sourcePositions subRowIdx subColIdx) (vertexIdx + s.columnsPerSubdivision)
  else if subRowIdx < s.subdivisionRows - 1 then
    getZ (tileAt s.sourcePositions (subRowIdx + 1) subColIdx)
      (vertexIdx % s.columnsPerSubdivision)
  else JSVal.num 0

/-- Lines 175-184 under JS semantics. -/
def leftContribution (s : JSState) (subRowIdx subColIdx vertexIdx : ℕ) : JSVal :=
  if relativeColumnIdx s vertexIdx > 0 then
    getZ (tileAt s.sourcePositions subRowIdx subColIdx) (vertexIdx - 1)
  else if subColIdx > 0 then
    getZ (tileAt s.sourcePositions subRowIdx (subColIdx - 1))
      (vertexIdx + (s.columnsPerSubdivision - 1))
  else JSVal.num 0

/-- Lines 187-196 under JS semantics. -/
def rightContribution (s : JSState) (subRowIdx subColIdx vertexIdx : ℕ) : JSVal :=
  if relativeColumnIdx s vertexIdx < s.columnsPerSubdivision - 1 then
    getZ (tileAt s.sourcePositions subRowIdx subColIdx) (vertexIdx + 1)
  else if subColIdx < s.subdivisionColumns - 1 then
    getZ (tileAt s.sourcePositions subRowIdx (subColIdx + 1))
      (vertexIdx - (s.columnsPerSubdivision - 1))
  else JSVal.num 0

/-- Lines 146-196: the accumulated neighbor sum, as JS additions starting
from the 0.0 accumulator. -/
def adjacentTotal (s : JSState) (subRowIdx subColIdx vertexIdx : ℕ) : JSVal :=
  jsAdd (jsAdd (jsAdd (aboveContribution s subRowIdx subColIdx vertexIdx)
    (belowContribution s subRowIdx subColIdx vertexIdx))
    (leftContribution s subRowIdx subColIdx vertexIdx))
    (rightContribution s subRowIdx subColIdx vertexIdx)

/-- Lines 199-202 abstracted over the neighbor sum `a` and the old result
value `r`: `Math.min(max, Math.max(min, a / 2.0 - r))`, then `*= damping`. -/
def jsStored (damping minDepth maxDepth : ℚ) (a r : JSVal) : JSVal :=
  jsMul (jsMin (JSVal.num maxDepth) (jsMax (JSVal.num minDepth)
    (jsSub (jsDiv2 a) r))) (JSVal.num damping)

/-- Lines 199-202: the value stored at a cell by the sweep. -/
def newCellZ (s : JSState) (subRowIdx subColIdx vertexIdx : ℕ) : JSVal :=
  jsStored s.waveDampingFactor s.minVertexDepth s.maxVertexDepth
    (adjacentTotal s subRowIdx subColIdx vertexIdx)
    (getZ (tileAt s.resultPositions subRowIdx subColIdx) vertexIdx)

/-- Line 203: the store into the result buffer. -/
def propagateCell (s : JSState) (subRowIdx subColIdx vertexIdx : ℕ) : JSState :=
  { s with
    resultPositions := setTile s.resultPositions subRowIdx subColIdx
      (setZ (tileAt s.resultPositions subRowIdx subColIdx) vertexIdx
        (newCellZ s subRowIdx subColIdx vertexIdx)) }

end JSF

namespace WaveWorker

/-- A single 2×2 JS tile whose source has NaN at cell 1 (an adversarial
template); all other values are 0, the result buffer is all 0. -/
def nanSourceTile : JSF.JSBuffer :=
  [JSF.JSVal.num 0, JSF.JSVal.num 0, JSF.JSVal.num 0,
   JSF.JSVal.num 0, JSF.JSVal.num 0, JSF.JSVal.nan,
   JSF.JSVal.num 0, JSF.JSVal.num 0, JSF.JSVal.num 0,
   JSF.JSVal.num 0, JSF.JSVal.num 0, JSF.JSVal.num 0]

def nanResultTile : JSF.JSBuffer :=
  List.replicate 12 (JSF.JSVal.num 0)

def nanDemoState : JSF.JSState :=
  { subdivisionRows := 1
    subdivisionColumns := 1
    columnsPerSubdivision := 2
    rowsPerSubdivision := 2
    minVertexDepth := -1
    maxVertexDepth := 1
    baseVertexDepth := 0
    waveDampingFactor := 9 / 10
    sourcePositions := [[nanSourceTile]]
    resultPositions := [[nanResultTile]] }

/-!
General lemmas about indexed list updates, specialized to the buffer and
nested tile-grid representations.
-/

lemma getD_set_ite {α : Type} (l : List α) (i j : ℕ) (x d : α) :
    (l.set i x).getD j d = if i = j ∧ i < l.length then x else l.getD j d := by
  simp only [List.getD_eq_getElem?_getD]
  by_cases hij : i = j
  · subst hij
    rcases Nat.lt_or_ge i l.length with h | h
    · simp [List.getElem?_set_self h, h]
    · rw [List.set_eq_of_length_le h]
      simp [Nat.not_lt.mpr h]
  · rw [List.getElem?_set_ne hij]
    simp [hij]

lemma set_getD_self {α : Type} (l : List α) (i : ℕ) (d : α) (h : i < l.length) :
    l.set i (l.getD i d) = l := by
  apply List.ext_getElem?
  intro n
  by_cases hin : i = n
  · subst hin
    rw [List.getElem?_set_self h]
    simp [List.getD_eq_getElem?_getD, List.getElem?_eq_getElem h]
  · exact List.getElem?_set_ne hin

lemma length_setZ (b : Buffer) (i : ℕ) (v : ℚ) : (setZ b i v).length = b.length :=
  List.length_set ..

lemma getZ_setZ_self (b : Buffer) (i : ℕ) (v : ℚ) (h : i * 3 + 2 < b.length) :
    getZ (setZ b i v) i = v := by
  simp [getZ, setZ, getD_set_ite, h]

lemma getZ_setZ_ne (b : Buffer) (i j : ℕ) (v : ℚ) (h : i ≠ j) :
    getZ (setZ b i v) j = getZ b j := by
  have h3 : ¬(i * 3 + 2 = j * 3 + 2 ∧ i * 3 + 2 < b.length) := by omega
  simp only [getZ, setZ, getD_set_ite, if_neg h3]

lemma setZ_of_length_le (b : Buffer) (i : ℕ) (v : ℚ) (h : b.length ≤ i * 3 + 2) :
    setZ b i v = b :=
  List.set_eq_of_length_le h

lemma length_setTile (g : List (List Buffer)) (R C : ℕ) (b : Buffer) :
    (setTile g R C b).length = g.length :=
  List.length_set ..

lemma rowAt_setTile (g : List (List Buffer)) (R C : ℕ) (b : Buffer) (R' : ℕ) :
    (setTile g R C b).getD R' [] =
      if R = R' ∧ R < g.length then (g.getD R []).set C b else g.getD R' [] :=
  getD_set_ite ..

lemma rowLength_setTile (g : List (List Buffer)) (R C : ℕ) (b : Buffer) (R' : ℕ) :
    ((setTile g R C b).getD R' []).length = (g.getD R' []).length := by
  rw [rowAt_setTile]
  split
  · next h => obtain ⟨h1, _⟩ := h; subst h1; exact List.length_set ..
  · rfl

lemma tileAt_setTile_self (g : List (List Buffer)) (R C : ℕ) (b : Buffer)
    (hR : R < g.length) (hC : C < (g.getD R []).length) :
    tileAt (setTile g R C b) R C = b := by
  unfold tileAt
  rw [rowAt_setTile, if_pos ⟨rfl, hR⟩, getD_set_ite, if_pos ⟨rfl, hC⟩]

lemma tileAt_setTile_ne (g : List (List Buffer)) (R C : ℕ) (b : Buffer) (R' C' : ℕ)
    (h : ¬(R = R' ∧ C = C')) :
    tileAt (setTile g R C b) R' C' = tileAt g R' C' := by
  unfold tileAt
  rw [rowAt_setTile]
  split
  · next hcase =>
    obtain ⟨hR, hlt⟩ := hcase
    subst hR
    have hC : ¬(C = C' ∧ C < (g.getD R []).length) := by
      intro hc
      exact h ⟨rfl, hc.1⟩
    rw [getD_set_ite, if_neg hC]
  · rfl

lemma setTile_tileAt_self (g : List (List Buffer)) (R C : ℕ)
    (hR : R < g.length) (hC : C < (g.getD R []).length) :
    setTile g R C (tileAt g R C) = g := by
  unfold setTile tileAt
  rw [set_getD_self _ _ _ hC]
  exact set_getD_self _ _ _ hR

lemma setTile_setTile (g : List (List Buffer)) (R C : ℕ) (b b' : Buffer)
    (hR : R < g.length) :
    setTile (setTile g R C b) R C b' = setTile g R C b' := by
  unfold setTile
  rw [List.set_set]
  congr 1
  rw [getD_set_ite, if_pos ⟨rfl, hR⟩]
  exact List.set_set ..

lemma sweepBuf_zero (F : ℕ → ℚ → ℚ) (b : Buffer) : sweepBuf F b 0 = b := rfl

lemma sweepBuf_succ (F : ℕ → ℚ → ℚ) (b : Buffer) (n : ℕ) :
    sweepBuf F b (n + 1) =
      setZ (sweepBuf F b n) n (F n (getZ (sweepBuf F b n) n)) := by
  unfold sweepBuf
  rw [List.range_succ, List.foldl_append]
  rfl

lemma length_sweepBuf (F : ℕ → ℚ → ℚ) (b : Buffer) (n : ℕ) :
    (sweepBuf F b n).length = b.length := by
  induction n with
  | zero => rfl
  | succ n ih => rw [sweepBuf_succ, length_setZ, ih]

lemma getZ_sweepBuf_of_ge (F : ℕ → ℚ → ℚ) (b : Buffer) (n i : ℕ) (h : n ≤ i) :
    getZ (sweepBuf F b n) i = getZ b i := by
  induction n with
  | zero => rfl
  | succ n ih =>
    rw [sweepBuf_succ, getZ_setZ_ne _ _ _ _ (by omega)]
    exact ih (by omega)

lemma getZ_sweepBuf_of_lt (F : ℕ → ℚ → ℚ) (b : Buffer) (n i : ℕ)
    (hlen : 3 * n ≤ b.length) (h : i < n) :
    getZ (sweepBuf F b n) i = F i (getZ b i) := by
  induction n with
  | zero => omega
  | succ n ih =>
    rw [sweepBuf_succ]
    rcases Nat.lt_or_ge i n with hin | hin
    · rw [getZ_setZ_ne _ _ _ _ (by omega)]
      exact ih (by omega) hin
    · have hi : i = n := by omega
      subst hi
      rw [getZ_sweepBuf_of_ge F b i i (le_refl i)]
      exact getZ_setZ_self _ _ _ (by rw [length_sweepBuf]; omega)

lemma rowFoldTiles_zero (B : ℕ → ℕ → Buffer) (g : List (List Buffer)) (R : ℕ) :
    rowFoldTiles B g R 0 = g := rfl

lemma rowFoldTiles_succ (B : ℕ → ℕ → Buffer) (g : List (List Buffer)) (R m : ℕ) :
    rowFoldTiles B g R (m + 1) = setTile (rowFoldTiles B g R m) R m (B R m) := by
  unfold rowFoldTiles
  rw [List.range_succ, List.foldl_append]
  rfl

lemma length_rowFoldTiles (B : ℕ → ℕ → Buffer) (g : List (List Buffer)) (R m : ℕ) :
    (rowFoldTiles B g R m).length = g.length := by
  induction m with
  | zero => rfl
  | succ m ih => rw [rowFoldTiles_succ, length_setTile, ih]

lemma rowLength_rowFoldTiles (B : ℕ → ℕ → Buffer) (g : List (List Buffer)) (R m R' : ℕ) :
    ((rowFoldTiles B g R m).getD R' []).length = (g.getD R' []).length := by
  induction m with
  | zero => rfl
  | succ m ih => rw [rowFoldTiles_succ, rowLength_setTile, ih]

lemma tileAt_rowFoldTiles_of_ne (B : ℕ → ℕ → Buffer) (g : List (List Buffer))
    (R m R' C' : ℕ) (h : R' ≠ R ∨ m ≤ C') :
    tileAt (rowFoldTiles B g R m) R' C' = tileAt g R' C' := by
  induction m with
  | zero => rfl
  | succ m ih =>
    rw [rowFoldTiles_succ, tileAt_setTile_ne _ _ _ _ _ _ (by omega)]
    exact ih (by omega)

lemma tileAt_rowFoldTiles_of_lt (B : ℕ → ℕ → Buffer) (g : List (List Buffer))
    (R m C' : ℕ) (hC' : C' < m) (hR : R < g.length) (hC : C' < (g.getD R []).length) :
    tileAt (rowFoldTiles B g R m) R C' = B R C' := by
  induction m with
  | zero => omega
  | succ m ih =>
    rw [rowFoldTiles_succ]
    rcases Nat.lt_or_ge C' m with hcm | hcm
    · rw [tileAt_setTile_ne _ _ _ _ _ _ (by omega)]
      exact ih hcm
    · have hc : C' = m := by omega
      subst hc
      exact tileAt_setTile_self _ _ _ _
        (by rw [length_rowFoldTiles]; exact hR)
        (by rw [rowLength_rowFoldTiles]; exact hC)

lemma gridFoldTiles_zero (B : ℕ → ℕ → Buffer) (g : List (List Buffer)) (cols : ℕ) :
    gridFoldTiles B g 0 cols = g := rfl

lemma gridFoldTiles_succ (B : ℕ → ℕ → Buffer) (g : List (List Buffer)) (k cols : ℕ) :
    gridFoldTiles B g (k + 1) cols = rowFoldTiles B (gridFoldTiles B g k cols) k cols := by
  unfold gridFoldTiles
  rw [List.range_succ, List.foldl_append]
  rfl

lemma length_gridFoldTiles (B : ℕ → ℕ → Buffer) (g : List (List Buffer)) (k cols : ℕ) :
    (gridFoldTiles B g k cols).length = g.length := by
  induction k with
  | zero => rfl
  | succ k ih => rw [gridFoldTiles_succ, length_rowFoldTiles, ih]

lemma rowLength_gridFoldTiles (B : ℕ → ℕ → Buffer) (g : List (List Buffer)) (k cols R' : ℕ) :
    ((gridFoldTiles B g k cols).getD R' []).length = (g.getD R' []).length := by
  induction k with
  | zero => rfl
  | succ k ih => rw [gridFoldTiles_succ, rowLength_rowFoldTiles, ih]

lemma tileAt_gridFoldTiles_of_ge (B : ℕ → ℕ → Buffer) (g : List (List Buffer))
    (k cols R' C' : ℕ) (h : k ≤ R') :
    tileAt (gridFoldTiles B g k cols) R' C' = tileAt g R' C' := by
  induction k with
  | zero => rfl
  | succ k ih =>
    rw [gridFoldTiles_succ, tileAt_rowFoldTiles_of_ne _ _ _ _ _ _ (Or.inl (by omega))]
    exact ih (by omega)

lemma tileAt_gridFoldTiles_of_lt (B : ℕ → ℕ → Buffer) (g : List (List Buffer))
    (k cols R' C' : ℕ) (hR' : R' < k) (hC' : C' < cols)
    (hRlen : R' < g.length) (hClen : C' < (g.getD R' []).length) :
    tileAt (gridFoldTiles B g k cols) R' C' = B R' C' := by
  induction k with
  | zero => omega
  | succ k ih =>
    rw [gridFoldTiles_succ]
    rcases Nat.lt_or_ge R' k with hrk | hrk
    · rw [tileAt_rowFoldTiles_of_ne _ _ _ _ _ _ (Or.inl (by omega))]
      exact ih hrk
    · have hr : R' = k := by omega
      subst hr
      rw [tileAt_rowFoldTiles_of_lt _ _ _ _ _ hC'
        (by rw [length_gridFoldTiles]; exact hRlen)
        (by rw [rowLength_gridFoldTiles]; exact hClen)]

/-!
Normal form of the propagation pass when no reset is pending: the sequential
in-place loop equals the replacement of every tile by a buffer computed purely
from the pre-sweep state.
-/

lemma propagateCell_nonreset (s : WorkerState) (R C i : ℕ)
    (h : s.resetRequested = false) :
    propagateCell s R C i =
      { s with
        resultPositions := setTile s.resultPositions R C
          (setZ (tileAt s.resultPositions R C) i (newCellZ s R C i)) } := by
  simp [propagateCell, h]

lemma cellFormula_update_result (s : WorkerState) (X : List (List Buffer)) :
    cellFormula { s with resultPositions := X } = cellFormula s := rfl

lemma vertexCount_update_result (s : WorkerState) (X : List (List Buffer)) :
    vertexCount { s with resultPositions := X } = vertexCount s := rfl

lemma foldl_propagateCell_nonreset (l : List ℕ) (s : WorkerState) (R C : ℕ)
    (h : s.resetRequested = false)
    (hR : R < s.resultPositions.length) (hC : C < (s.resultPositions.getD R []).length) :
    l.foldl (fun s3 i => propagateCell s3 R C i) s =
      { s with
        resultPositions := setTile s.resultPositions R C
          (l.foldl (fun acc i => setZ acc i (cellFormula s R C i (getZ acc i)))
            (tileAt s.resultPositions R C)) } := by
  induction l generalizing s with
  | nil =>
    simp only [List.foldl_nil]
    rw [setTile_tileAt_self _ _ _ hR hC]
  | cons i t ih =>
    simp only [List.foldl_cons]
    rw [propagateCell_nonreset s R C i h]
    have hR1 : R < (setTile s.resultPositions R C
        (setZ (tileAt s.resultPositions R C) i (newCellZ s R C i))).length := by
      rw [length_setTile]; exact hR
    have hC1 : C < ((setTile s.resultPositions R C
        (setZ (tileAt s.resultPositions R C) i (newCellZ s R C i))).getD R []).length := by
      rw [rowLength_setTile]; exact hC
    rw [ih { s with resultPositions := setTile s.resultPositions R C (setZ (tileAt s.resultPositions R C) i (newCellZ s R C i)) } h hR1 hC1]
    dsimp only
    rw [tileAt_setTile_self _ _ _ _ hR hC]
    rw [setTile_setTile _ _ _ _ _ hR]
    rfl

lemma propagateTile_eq_nonreset (s : WorkerState) (R C : ℕ)
    (h : s.resetRequested = false)
    (hR : R < s.resultPositions.length) (hC : C < (s.resultPositions.getD R []).length) :
    propagateTile s R C =
      { s with
        resultPositions := setTile s.resultPositions R C
          (sweepBuf (cellFormula s R C) (tileAt s.resultPositions R C) (vertexCount s)) } :=
  foldl_propagateCell_nonreset (List.range (vertexCount s)) s R C h hR hC

lemma foldl_propagateTile_cols (s0 : WorkerState) (h : s0.resetRequested = false)
    (R : ℕ) (hR : R < s0.resultPositions.length)
    (G : List (List Buffer))
    (hGlen : G.length = s0.resultPositions.length)
    (hGrow : ∀ R', (G.getD R' []).length = (s0.resultPositions.getD R' []).length)
    (m : ℕ) (hm : ∀ C < m, C < (s0.resultPositions.getD R []).length)
    (horig : ∀ C < m, tileAt G R C = tileAt s0.resultPositions R C) :
    (List.range m).foldl (fun s2 C => propagateTile s2 R C)
        { s0 with resultPositions := G }
      = { s0 with resultPositions := rowFoldTiles (newTile s0) G R m } := by
  induction m with
  | zero => rfl
  | succ m ih =>
    rw [List.range_succ, List.foldl_append]
    rw [ih (fun C hC => hm C (by omega)) (fun C hC => horig C (by omega))]
    simp only [List.foldl_cons, List.foldl_nil]
    have hR2 : R < ({ s0 with
        resultPositions := rowFoldTiles (newTile s0) G R m } : WorkerState).resultPositions.length := by
      dsimp only
      rw [length_rowFoldTiles, hGlen]
      exact hR
    have hC2 : m < (({ s0 with
        resultPositions := rowFoldTiles (newTile s0) G R m } : WorkerState).resultPositions.getD R []).length := by
      dsimp only
      rw [rowLength_rowFoldTiles, hGrow]
      exact hm m (Nat.lt_succ_self m)
    rw [propagateTile_eq_nonreset
      { s0 with resultPositions := rowFoldTiles (newTile s0) G R m } R m h hR2 hC2]
    dsimp only
    rw [rowFoldTiles_succ]
    rw [tileAt_rowFoldTiles_of_ne _ _ _ _ _ _ (Or.inr (le_refl m)),
        horig m (Nat.lt_succ_self m)]
    rfl

lemma foldl_propagate_rows (s0 : WorkerState) (h : s0.resetRequested = false)
    (hlen : s0.resultPositions.length = s0.subdivisionRows)
    (hrow : ∀ R' < s0.subdivisionRows,
      (s0.resultPositions.getD R' []).length = s0.subdivisionColumns)
    (k : ℕ) (hk : k ≤ s0.subdivisionRows) :
    (List.range k).foldl
        (fun s1 R =>
          (List.range s0.subdivisionColumns).foldl
            (fun s2 C => propagateTile s2 R C) s1) s0
      = { s0 with
          resultPositions := gridFoldTiles (newTile s0) s0.resultPositions k
            s0.subdivisionColumns } := by
  induction k with
  | zero => rfl
  | succ k ih =>
    rw [List.range_succ, List.foldl_append, ih (by omega)]
    simp only [List.foldl_cons, List.foldl_nil]
    have hRk : k < s0.resultPositions.length := by omega
    have hm : ∀ C < s0.subdivisionColumns, C < (s0.resultPositions.getD k []).length := by
      intro C hC
      rw [hrow k (by omega)]
      exact hC
    have horig : ∀ C < s0.subdivisionColumns,
        tileAt (gridFoldTiles (newTile s0) s0.resultPositions k s0.subdivisionColumns) k C
          = tileAt s0.resultPositions k C := by
      intro C hC
      exact tileAt_gridFoldTiles_of_ge _ _ _ _ _ _ (le_refl k)
    rw [foldl_propagateTile_cols s0 h k hRk _
      (length_gridFoldTiles _ _ _ _)
      (fun R' => rowLength_gridFoldTiles _ _ _ _ _)
      s0.subdivisionColumns hm horig]
    rw [← gridFoldTiles_succ]

lemma propagate_eq_nonreset (s : WorkerState) (h : s.resetRequested = false)
    (hwf : WellFormed s) :
    propagate s =
      { s with
        resultPositions := gridFoldTiles (newTile s) s.resultPositions
          s.subdivisionRows s.subdivisionColumns } := by
  obtain ⟨hs, hr, hrest⟩ := hwf
  exact foldl_propagate_rows s h hr (fun R' hR' => (hrest R' hR').2.1)
    s.subdivisionRows (le_refl _)

lemma propagate_source_nonreset (s : WorkerState) (h : s.resetRequested = false)
    (hwf : WellFormed s) :
    (propagate s).sourcePositions = s.sourcePositions := by
  rw [propagate_eq_nonreset s h hwf]

lemma propagate_getZ_nonreset (s : WorkerState) (h : s.resetRequested = false)
    (hwf : WellFormed s) (R C i : ℕ)
    (hR : R < s.subdivisionRows) (hC : C < s.subdivisionColumns)
    (hi : i < vertexCount s) :
    getZ (tileAt (propagate s).resultPositions R C) i = newCellZ s R C i := by
  rw [propagate_eq_nonreset s h hwf]
  dsimp only
  obtain ⟨h1, h2, h3⟩ := hwf
  rw [tileAt_gridFoldTiles_of_lt _ _ _ _ _ _ hR hC
    (by rw [h2]; exact hR)
    (by rw [(h3 R hR).2.1]; exact hC)]
  unfold newTile
  rw [getZ_sweepBuf_of_lt _ _ _ _ (le_of_eq ((h3 R hR).2.2 C hC).2.symm) hi]
  rfl

lemma propagateCell_reset (s : WorkerState) (R C i : ℕ)
    (h : s.resetRequested = true) :
    propagateCell s R C i =
      { s with
        sourcePositions := setTile s.sourcePositions R C
          (setZ (tileAt s.sourcePositions R C) i s.baseVertexDepth)
        resultPositions := setTile s.resultPositions R C
          (setZ (tileAt s.resultPositions R C) i s.baseVertexDepth) } := by
  simp [propagateCell, h]

lemma foldl_propagateCell_reset (l : List ℕ) (s : WorkerState) (R C : ℕ)
    (h : s.resetRequested = true)
    (hRs : R < s.sourcePositions.length) (hCs : C < (s.sourcePositions.getD R []).length)
    (hRr : R < s.resultPositions.length) (hCr : C < (s.resultPositions.getD R []).length) :
    l.foldl (fun s3 i => propagateCell s3 R C i) s =
      { s with
        sourcePositions := setTile s.sourcePositions R C
          (l.foldl (fun acc i => setZ acc i s.baseVertexDepth)
            (tileAt s.sourcePositions R C))
        resultPositions := setTile s.resultPositions R C
          (l.foldl (fun acc i => setZ acc i s.baseVertexDepth)
            (tileAt s.resultPositions R C)) } := by
  induction l generalizing s with
  | nil =>
    simp only [List.foldl_nil]
    rw [setTile_tileAt_self _ _ _ hRs hCs, setTile_tileAt_self _ _ _ hRr hCr]
  | cons i t ih =>
    simp only [List.foldl_cons]
    rw [propagateCell_reset s R C i h]
    have hRs1 : R < (setTile s.sourcePositions R C
        (setZ (tileAt s.sourcePositions R C) i s.baseVertexDepth)).length := by
      rw [length_setTile]; exact hRs
    have hCs1 : C < ((setTile s.sourcePositions R C
        (setZ (tileAt s.sourcePositions R C) i s.baseVertexDepth)).getD R []).length := by
      rw [rowLength_setTile]; exact hCs
    have hRr1 : R < (setTile s.resultPositions R C
        (setZ (tileAt s.resultPositions R C) i s.baseVertexDepth)).length := by
      rw [length_setTile]; exact hRr
    have hCr1 : C < ((setTile s.resultPositions R C
        (setZ (tileAt s.resultPositions R C) i s.baseVertexDepth)).getD R []).length := by
      rw [rowLength_setTile]; exact hCr
    rw [ih { s with sourcePositions := setTile s.sourcePositions R C (setZ (tileAt s.sourcePositions R C) i s.baseVertexDepth), resultPositions := setTile s.resultPositions R C (setZ (tileAt s.resultPositions R C) i s.baseVertexDepth) } h hRs1 hCs1 hRr1 hCr1]
    dsimp only
    rw [tileAt_setTile_self _ _ _ _ hRs hCs, tileAt_setTile_self _ _ _ _ hRr hCr]
    rw [setTile_setTile _ _ _ _ _ hRs, setTile_setTile _ _ _ _ _ hRr]

lemma propagateTile_eq_reset (s : WorkerState) (R C : ℕ)
    (h : s.resetRequested = true)
    (hRs : R < s.sourcePositions.length) (hCs : C < (s.sourcePositions.getD R []).length)
    (hRr : R < s.resultPositions.length) (hCr : C < (s.resultPositions.getD R []).length) :
    propagateTile s R C =
      { s with
        sourcePositions := setTile s.sourcePositions R C
          (sweepBuf (fun _ _ => s.baseVertexDepth) (tileAt s.sourcePositions R C)
            (vertexCount s))
        resultPositions := setTile s.resultPositions R C
          (sweepBuf (fun _ _ => s.baseVertexDepth) (tileAt s.resultPositions R C)
            (vertexCount s)) } :=
  foldl_propagateCell_reset (List.range (vertexCount s)) s R C h hRs hCs hRr hCr

lemma foldl_propagateTile_cols_reset (s0 : WorkerState) (h : s0.resetRequested = true)
    (R : ℕ) (hRs : R < s0.sourcePositions.length) (hRr : R < s0.resultPositions.length)
    (Gs Gr : List (List Buffer))
    (hGslen : Gs.length = s0.sourcePositions.length)
    (hGsrow : ∀ R', (Gs.getD R' []).length = (s0.sourcePositions.getD R' []).length)
    (hGrlen : Gr.length = s0.resultPositions.length)
    (hGrrow : ∀ R', (Gr.getD R' []).length = (s0.resultPositions.getD R' []).length)
    (m : ℕ)
    (hms : ∀ C < m, C < (s0.sourcePositions.getD R []).length)
    (hmr : ∀ C < m, C < (s0.resultPositions.getD R []).length)
    (horigs : ∀ C < m, tileAt Gs R C = tileAt s0.sourcePositions R C)
    (horigr : ∀ C < m, tileAt Gr R C = tileAt s0.resultPositions R C) :
    (List.range m).foldl (fun s2 C => propagateTile s2 R C)
        { s0 with sourcePositions := Gs, resultPositions := Gr }
      = { s0 with
          sourcePositions := rowFoldTiles (resetSourceTile s0) Gs R m
          resultPositions := rowFoldTiles (resetResultTile s0) Gr R m } := by
  induction m with
  | zero => rfl
  | succ m ih =>
    rw [List.range_succ, List.foldl_append]
    rw [ih (fun C hC => hms C (by omega)) (fun C hC => hmr C (by omega))
      (fun C hC => horigs C (by omega)) (fun C hC => horigr C (by omega))]
    simp only [List.foldl_cons, List.foldl_nil]
    have hRs2 : R < ({ s0 with
        sourcePositions := rowFoldTiles (resetSourceTile s0) Gs R m
        resultPositions := rowFoldTiles (resetResultTile s0) Gr R m } : WorkerState).sourcePositions.length := by
      dsimp only
      rw [length_rowFoldTiles, hGslen]
      exact hRs
    have hCs2 : m < (({ s0 with
        sourcePositions := rowFoldTiles (resetSourceTile s0) Gs R m
        resultPositions := rowFoldTiles (resetResultTile s0) Gr R m } : WorkerState).sourcePositions.getD R []).length := by
      dsimp only
      rw [rowLength_rowFoldTiles, hGsrow]
      exact hms m (Nat.lt_succ_self m)
    have hRr2 : R < ({ s0 with
        sourcePositions := rowFoldTiles (resetSourceTile s0) Gs R m
        resultPositions := rowFoldTiles (resetResultTile s0) Gr R m } : WorkerState).resultPositions.length := by
      dsimp only
      rw [length_rowFoldTiles, hGrlen]
      exact hRr
    have hCr2 : m < (({ s0 with
        sourcePositions := rowFoldTiles (resetSourceTile s0) Gs R m
        resultPositions := rowFoldTiles (resetResultTile s0) Gr R m } : WorkerState).resultPositions.getD R []).length := by
      dsimp only
      rw [rowLength_rowFoldTiles, hGrrow]
      exact hmr m (Nat.lt_succ_self m)
    rw [propagateTile_eq_reset
      { s0 with
        sourcePositions := rowFoldTiles (resetSourceTile s0) Gs R m
        resultPositions := rowFoldTiles (resetResultTile s0) Gr R m } R m h hRs2 hCs2 hRr2 hCr2]
    dsimp only
    rw [rowFoldTiles_succ (resetSourceTile s0) Gs R m,
        rowFoldTiles_succ (resetResultTile s0) Gr R m]
    rw [tileAt_rowFoldTiles_of_ne (resetSourceTile s0) Gs R m R m (Or.inr (le_refl m)),
        tileAt_rowFoldTiles_of_ne (resetResultTile s0) Gr R m R m (Or.inr (le_refl m))]
    rw [horigs m (Nat.lt_succ_self m), horigr m (Nat.lt_succ_self m)]
    rfl

lemma foldl_propagate_rows_reset (s0 : WorkerState) (h : s0.resetRequested = true)
    (hslen : s0.sourcePositions.length = s0.subdivisionRows)
    (hsrow : ∀ R' < s0.subdivisionRows,
      (s0.sourcePositions.getD R' []).length = s0.subdivisionColumns)
    (hrlen : s0.resultPositions.length = s0.subdivisionRows)
    (hrrow : ∀ R' < s0.subdivisionRows,
      (s0.resultPositions.getD R' []).length = s0.subdivisionColumns)
    (k : ℕ) (hk : k ≤ s0.subdivisionRows) :
    (List.range k).foldl
        (fun s1 R =>
          (List.range s0.subdivisionColumns).foldl
            (fun s2 C => propagateTile s2 R C) s1) s0
      = { s0 with
          sourcePositions := gridFoldTiles (resetSourceTile s0) s0.sourcePositions k
            s0.subdivisionColumns
          resultPositions := gridFoldTiles (resetResultTile s0) s0.resultPositions k
            s0.subdivisionColumns } := by
  induction k with
  | zero => rfl
  | succ k ih =>
    rw [List.range_succ, List.foldl_append, ih (by omega)]
    simp only [List.foldl_cons, List.foldl_nil]
    have hms : ∀ C < s0.subdivisionColumns, C < (s0.sourcePositions.getD k []).length := by
      intro C hC
      rw [hsrow k (by omega)]
      exact hC
    have hmr : ∀ C < s0.subdivisionColumns, C < (s0.resultPositions.getD k []).length := by
      intro C hC
      rw [hrrow k (by omega)]
      exact hC
    rw [foldl_propagateTile_cols_reset s0 h k (by omega) (by omega) _ _
      (length_gridFoldTiles _ _ _ _)
      (fun R' => rowLength_gridFoldTiles _ _ _ _ _)
      (length_gridFoldTiles _ _ _ _)
      (fun R' => rowLength_gridFoldTiles _ _ _ _ _)
      s0.subdivisionColumns hms hmr
      (fun C hC => tileAt_gridFoldTiles_of_ge _ _ _ _ _ _ (le_refl k))
      (fun C hC => tileAt_gridFoldTiles_of_ge _ _ _ _ _ _ (le_refl k))]
    rw [← gridFoldTiles_succ, ← gridFoldTiles_succ]

lemma propagate_eq_reset (s : WorkerState) (h : s.resetRequested = true)
    (hwf : WellFormed s) :
    propagate s =
      { s with
        sourcePositions := gridFoldTiles (resetSourceTile s) s.sourcePositions
          s.subdivisionRows s.subdivisionColumns
        resultPositions := gridFoldTiles (resetResultTile s) s.resultPositions
          s.subdivisionRows s.subdivisionColumns } := by
  obtain ⟨hs, hr, hrest⟩ := hwf
  exact foldl_propagate_rows_reset s h hs (fun R' hR' => (hrest R' hR').1)
    hr (fun R' hR' => (hrest R' hR').2.1) s.subdivisionRows (le_refl _)

lemma propagate_getZ_reset (s : WorkerState) (h : s.resetRequested = true)
    (hwf : WellFormed s) (R C i : ℕ)
    (hR : R < s.subdivisionRows) (hC : C < s.subdivisionColumns)
    (hi : i < vertexCount s) :
    getZ (tileAt (propagate s).sourcePositions R C) i = s.baseVertexDepth ∧
    getZ (tileAt (propagate s).resultPositions R C) i = s.baseVertexDepth := by
  rw [propagate_eq_reset s h hwf]
  dsimp only
  obtain ⟨h1, h2, h3⟩ := hwf
  constructor
  · rw [tileAt_gridFoldTiles_of_lt _ _ _ _ _ _ hR hC
      (by rw [h1]; exact hR)
      (by rw [(h3 R hR).1]; exact hC)]
    unfold resetSourceTile
    rw [getZ_sweepBuf_of_lt _ _ _ _ (le_of_eq ((h3 R hR).2.2 C hC).1.symm) hi]
  · rw [tileAt_gridFoldTiles_of_lt _ _ _ _ _ _ hR hC
      (by rw [h2]; exact hR)
      (by rw [(h3 R hR).2.1]; exact hC)]
    unfold resetResultTile
    rw [getZ_sweepBuf_of_lt _ _ _ _ (le_of_eq ((h3 R hR).2.2 C hC).2.symm) hi]

/-!
Lemmas about the pointer-event drain.
-/

lemma drainPointerEvents_reset (s : WorkerState) (h : s.resetRequested = true) :
    drainPointerEvents s = some { s with pendingPointerEvents := [] } := by
  simp [drainPointerEvents, h]

lemma getD_of_lt {α : Type} (l : List α) (i : ℕ) (d : α) (h : i < l.length) :
    l.getD i d = l[i] := by
  rw [List.getD_eq_getElem?_getD, List.getElem?_eq_getElem h]
  rfl

lemma getElem?_eq_some_getD {α : Type} (l : List α) (i : ℕ) (d : α) (h : i < l.length) :
    l[i]? = some (l.getD i d) := by
  rw [List.getElem?_eq_getElem h, getD_of_lt _ _ _ h]

lemma applyPointerEvent_eq (s : WorkerState) (e : PointerEvent) (h : InRangeTile s e) :
    applyPointerEvent s e = some (pushCell s e) := by
  obtain ⟨h1, h2, h3, h4⟩ := h
  unfold applyPointerEvent
  rw [getElem?_eq_some_getD s.sourcePositions e.rowIndex [] h1,
      getElem?_eq_some_getD s.resultPositions e.rowIndex [] h3]
  simp only [Option.some_bind]
  rw [getElem?_eq_some_getD _ e.columnIndex [] h2,
      getElem?_eq_some_getD _ e.columnIndex [] h4]
  rfl

lemma pushCell_getZ_self_source (s : WorkerState) (e : PointerEvent)
    (h : InRangeTile s e)
    (hv : e.vertexIndex * 3 + 2 < (tileAt s.sourcePositions e.rowIndex e.columnIndex).length) :
    getZ (tileAt (pushCell s e).sourcePositions e.rowIndex e.columnIndex) e.vertexIndex
      = s.minVertexDepth := by
  obtain ⟨h1, h2, h3, h4⟩ := h
  unfold pushCell
  dsimp only
  rw [tileAt_setTile_self _ _ _ _ h1 h2]
  exact getZ_setZ_self _ _ _ hv

lemma pushCell_getZ_self_result (s : WorkerState) (e : PointerEvent)
    (h : InRangeTile s e)
    (hv : e.vertexIndex * 3 + 2 < (tileAt s.resultPositions e.rowIndex e.columnIndex).length) :
    getZ (tileAt (pushCell s e).resultPositions e.rowIndex e.columnIndex) e.vertexIndex
      = s.maxVertexDepth := by
  obtain ⟨h1, h2, h3, h4⟩ := h
  unfold pushCell
  dsimp only
  rw [tileAt_setTile_self _ _ _ _ h3 h4]
  exact getZ_setZ_self _ _ _ hv

lemma pushCell_getZ_other (s : WorkerState) (e : PointerEvent) (R C v : ℕ)
    (h : ¬(e.rowIndex = R ∧ e.columnIndex = C ∧ e.vertexIndex = v)) :
    getZ (tileAt (pushCell s e).sourcePositions R C) v
        = getZ (tileAt s.sourcePositions R C) v ∧
    getZ (tileAt (pushCell s e).resultPositions R C) v
        = getZ (tileAt s.resultPositions R C) v := by
  unfold pushCell
  dsimp only
  by_cases htile : e.rowIndex = R ∧ e.columnIndex = C
  · obtain ⟨hr, hc⟩ := htile
    subst hr
    subst hc
    have hvne : e.vertexIndex ≠ v := fun hveq => h ⟨rfl, rfl, hveq⟩
    constructor
    · by_cases hR : e.rowIndex < s.sourcePositions.length
      · by_cases hC : e.columnIndex < (s.sourcePositions.getD e.rowIndex []).length
        · rw [tileAt_setTile_self _ _ _ _ hR hC]
          exact getZ_setZ_ne _ _ _ _ hvne
        · unfold setTile tileAt
          rw [getD_set_ite]
          split
          · next hcase =>
            rw [getD_set_ite, if_neg (fun hc2 => hC hc2.2)]
          · rfl
      · unfold setTile tileAt
        rw [getD_set_ite, if_neg (fun hc2 => hR hc2.2)]
    · by_cases hR : e.rowIndex < s.resultPositions.length
      · by_cases hC : e.columnIndex < (s.resultPositions.getD e.rowIndex []).length
        · rw [tileAt_setTile_self _ _ _ _ hR hC]
          exact getZ_setZ_ne _ _ _ _ hvne
        · unfold setTile tileAt
          rw [getD_set_ite]
          split
          · next hcase =>
            rw [getD_set_ite, if_neg (fun hc2 => hC hc2.2)]
          · rfl
      · unfold setTile tileAt
        rw [getD_set_ite, if_neg (fun hc2 => hR hc2.2)]
  · constructor
    · rw [tileAt_setTile_ne _ _ _ _ _ _ (fun hc => htile ⟨hc.1, hc.2⟩)]
    · rw [tileAt_setTile_ne _ _ _ _ _ _ (fun hc => htile ⟨hc.1, hc.2⟩)]

lemma sameShape_refl (s : WorkerState) : SameShape s s := by
  unfold SameShape
  refine ⟨rfl, rfl, rfl, rfl, rfl, rfl, rfl, rfl, rfl, rfl, rfl, ?_, ?_, ?_, ?_⟩ <;>
    intros <;> rfl

lemma sameShape_trans {s s1 s2 : WorkerState}
    (h1 : SameShape s s1) (h2 : SameShape s1 s2) : SameShape s s2 := by
  obtain ⟨a1, a2, a3, a4, a5, a6, a7, a8, a9, a10, a11, a12, a13, a14, a15⟩ := h1
  obtain ⟨b1, b2, b3, b4, b5, b6, b7, b8, b9, b10, b11, b12, b13, b14, b15⟩ := h2
  exact ⟨b1.trans a1, b2.trans a2, b3.trans a3, b4.trans a4, b5.trans a5,
    b6.trans a6, b7.trans a7, b8.trans a8, b9.trans a9, b10.trans a10,
    b11.trans a11, fun R' => (b12 R').trans (a12 R'),
    fun R' => (b13 R').trans (a13 R'),
    fun R C => (b14 R C).trans (a14 R C),
    fun R C => (b15 R C).trans (a15 R C)⟩

lemma tileLength_setTile (g : List (List Buffer)) (R C : ℕ) (b : Buffer)
    (hb : b.length = (tileAt g R C).length) (R' C' : ℕ) :
    (tileAt (setTile g R C b) R' C').length = (tileAt g R' C').length := by
  by_cases h : R = R' ∧ C = C'
  · obtain ⟨hR, hC⟩ := h
    subst hR
    subst hC
    by_cases hRl : R < g.length
    · by_cases hCl : C < (g.getD R []).length
      · rw [tileAt_setTile_self _ _ _ _ hRl hCl, hb]
      · unfold tileAt setTile
        rw [getD_set_ite]
        split
        · rw [getD_set_ite, if_neg (fun hc2 => hCl hc2.2)]
        · rfl
    · unfold tileAt setTile
      rw [getD_set_ite, if_neg (fun hc2 => hRl hc2.2)]
  · rw [tileAt_setTile_ne _ _ _ _ _ _ h]

lemma pushCell_sameShape (s : WorkerState) (e : PointerEvent) :
    SameShape s (pushCell s e) := by
  unfold SameShape pushCell
  dsimp only
  refine ⟨rfl, rfl, rfl, rfl, rfl, rfl, rfl, rfl, rfl, ?_, ?_, ?_, ?_, ?_, ?_⟩
  · exact length_setTile _ _ _ _
  · exact length_setTile _ _ _ _
  · intro R'
    exact rowLength_setTile _ _ _ _ _
  · intro R'
    exact rowLength_setTile _ _ _ _ _
  · intro R C
    exact tileLength_setTile _ _ _ _ (length_setZ _ _ _) R C
  · intro R C
    exact tileLength_setTile _ _ _ _ (length_setZ _ _ _) R C

lemma inRangeTile_of_sameShape {s s1 : WorkerState} (hs : SameShape s s1)
    (e : PointerEvent) (h : InRangeTile s e) : InRangeTile s1 e := by
  obtain ⟨a1, a2, a3, a4, a5, a6, a7, a8, a9, a10, a11, a12, a13, a14, a15⟩ := hs
  obtain ⟨h1, h2, h3, h4⟩ := h
  exact ⟨by rw [a10]; exact h1, by rw [a12]; exact h2,
    by rw [a11]; exact h3, by rw [a13]; exact h4⟩

lemma foldlM_applyPointerEvent_spec (l : List PointerEvent) (s : WorkerState)
    (hin : ∀ e ∈ l, InRangeTile s e) :
    ∃ s2, l.foldlM applyPointerEvent s = some s2 ∧ SameShape s s2 ∧
      (∀ R C v, (∀ e ∈ l, ¬(e.rowIndex = R ∧ e.columnIndex = C ∧ e.vertexIndex = v)) →
        getZ (tileAt s2.sourcePositions R C) v = getZ (tileAt s.sourcePositions R C) v ∧
        getZ (tileAt s2.resultPositions R C) v = getZ (tileAt s.resultPositions R C) v) ∧
      (l.Nodup → ∀ e ∈ l,
        (e.vertexIndex * 3 + 2 < (tileAt s.sourcePositions e.rowIndex e.columnIndex).length →
          getZ (tileAt s2.sourcePositions e.rowIndex e.columnIndex) e.vertexIndex
            = s.minVertexDepth) ∧
        (e.vertexIndex * 3 + 2 < (tileAt s.resultPositions e.rowIndex e.columnIndex).length →
          getZ (tileAt s2.resultPositions e.rowIndex e.columnIndex) e.vertexIndex
            = s.maxVertexDepth)) := by
  induction l generalizing s with
  | nil =>
    exact ⟨s, rfl, sameShape_refl s, fun R C v _ => ⟨rfl, rfl⟩, fun _ e he => absurd he (List.not_mem_nil e)⟩
  | cons e t ih =>
    have he : InRangeTile s e := hin e (List.mem_cons_self e t)
    have hshape1 : SameShape s (pushCell s e) := pushCell_sameShape s e
    obtain ⟨s2, hfold, hshape2, hpres, hset⟩ :=
      ih (pushCell s e) (fun e2 he2 =>
        inRangeTile_of_sameShape hshape1 e2 (hin e2 (List.mem_cons_of_mem e he2)))
    refine ⟨s2, ?_, sameShape_trans hshape1 hshape2, ?_, ?_⟩
    · rw [List.foldlM_cons, applyPointerEvent_eq s e he]
      exact hfold
    · intro R C v hnone
      have hstep := pushCell_getZ_other s e R C v (hnone e (List.mem_cons_self e t))
      have hrest := hpres R C v (fun e2 he2 => hnone e2 (List.mem_cons_of_mem e he2))
      exact ⟨hrest.1.trans hstep.1, hrest.2.trans hstep.2⟩
    · intro hnd e2 he2
      have hndt : t.Nodup := (List.nodup_cons.mp hnd).2
      have hent : e ∉ t := (List.nodup_cons.mp hnd).1
      rcases List.mem_cons.mp he2 with heq | hmem
      · subst heq
        constructor
        · intro hv
          have hwrite := pushCell_getZ_self_source s e2 he hv
          have hkeep := (hpres e2.rowIndex e2.columnIndex e2.vertexIndex
            (fun e3 he3 hc => by
              apply hent
              have he3e : e3 = e2 := by
                cases e3
                cases e2
                simp only [PointerEvent.mk.injEq]
                exact ⟨hc.1, hc.2.1, hc.2.2⟩
              rw [← he3e]
              exact he3)).1
          rw [hkeep, hwrite]
        · intro hv
          have hwrite := pushCell_getZ_self_result s e2 he hv
          have hkeep := (hpres e2.rowIndex e2.columnIndex e2.vertexIndex
            (fun e3 he3 hc => by
              apply hent
              have he3e : e3 = e2 := by
                cases e3
                cases e2
                simp only [PointerEvent.mk.injEq]
                exact ⟨hc.1, hc.2.1, hc.2.2⟩
              rw [← he3e]
              exact he3)).2
          rw [hkeep, hwrite]
      · have hs1 := hset hndt e2 hmem
        obtain ⟨a1, a2, a3, a4, a5, a6, a7, a8, a9, a10, a11, a12, a13, a14, a15⟩ := hshape1
        constructor
        · intro hv
          have hv1 : e2.vertexIndex * 3 + 2 <
              (tileAt (pushCell s e).sourcePositions e2.rowIndex e2.columnIndex).length := by
            rw [a14]
            exact hv
          rw [hs1.1 hv1]
          exact a5
        · intro hv
          have hv1 : e2.vertexIndex * 3 + 2 <
              (tileAt (pushCell s e).resultPositions e2.rowIndex e2.columnIndex).length := by
            rw [a15]
            exact hv
          rw [hs1.2 hv1]
          exact a6

lemma drainPointerEvents_nonreset (s : WorkerState) (h : s.resetRequested = false) :
    drainPointerEvents s =
      (s.pendingPointerEvents.foldlM applyPointerEvent s).bind
        (fun s1 => some { s1 with pendingPointerEvents := [] }) := by
  simp [drainPointerEvents, h]

lemma drainPointerEvents_spec (s : WorkerState) (h : s.resetRequested = false)
    (hwf : WellFormed s)
    (hin : ∀ e ∈ s.pendingPointerEvents,
      e.rowIndex < s.subdivisionRows ∧ e.columnIndex < s.subdivisionColumns)
    (hnd : s.pendingPointerEvents.Nodup) :
    ∃ s2, drainPointerEvents s = some s2 ∧ SameShape s s2 ∧
      s2.resetRequested = false ∧ s2.pendingPointerEvents = [] ∧
      ∀ e ∈ s.pendingPointerEvents, e.vertexIndex < vertexCount s →
        getZ (tileAt s2.sourcePositions e.rowIndex e.columnIndex) e.vertexIndex
          = s.minVertexDepth ∧
        getZ (tileAt s2.resultPositions e.rowIndex e.columnIndex) e.vertexIndex
          = s.maxVertexDepth := by
  obtain ⟨h1, h2, h3⟩ := hwf
  have hinr : ∀ e ∈ s.pendingPointerEvents, InRangeTile s e := by
    intro e he
    obtain ⟨her, hec⟩ := hin e he
    exact ⟨by rw [h1]; exact her, by rw [(h3 _ her).1]; exact hec,
      by rw [h2]; exact her, by rw [(h3 _ her).2.1]; exact hec⟩
  obtain ⟨s1, hfold, hshape, hpres, hset⟩ :=
    foldlM_applyPointerEvent_spec s.pendingPointerEvents s hinr
  refine ⟨{ s1 with pendingPointerEvents := [] }, ?_, ?_, ?_, rfl, ?_⟩
  · rw [drainPointerEvents_nonreset s h, hfold]
    rfl
  · obtain ⟨a1, a2, a3, a4, a5, a6, a7, a8, a9, a10, a11, a12, a13, a14, a15⟩ := hshape
    exact ⟨a1, a2, a3, a4, a5, a6, a7, a8, a9, a10, a11, a12, a13, a14, a15⟩
  · obtain ⟨a1, a2, a3, a4, a5, a6, a7, a8, a9, a10, a11, a12, a13, a14, a15⟩ := hshape
    rw [show ({ s1 with pendingPointerEvents := [] } : WorkerState).resetRequested
      = s1.resetRequested from rfl, a9]
    exact h
  · intro e he hv
    obtain ⟨her, hec⟩ := hin e he
    have hvs : e.vertexIndex * 3 + 2 <
        (tileAt s.sourcePositions e.rowIndex e.columnIndex).length := by
      rw [((h3 _ her).2.2 _ hec).1]
      omega
    have hvr : e.vertexIndex * 3 + 2 <
        (tileAt s.resultPositions e.rowIndex e.columnIndex).length := by
      rw [((h3 _ her).2.2 _ hec).2]
      omega
    exact ⟨((hset hnd e he).1 hvs : _), ((hset hnd e he).2 hvr : _)⟩

lemma pushCell_noop (s : WorkerState) (e : PointerEvent) (hwf : WellFormed s)
    (hr : e.rowIndex < s.subdivisionRows) (hc : e.columnIndex < s.subdivisionColumns)
    (hv : vertexCount s ≤ e.vertexIndex) :
    pushCell s e = s := by
  obtain ⟨h1, h2, h3⟩ := hwf
  have hsr : e.rowIndex < s.sourcePositions.length := by rw [h1]; exact hr
  have hsc : e.columnIndex < (s.sourcePositions.getD e.rowIndex []).length := by
    rw [(h3 _ hr).1]; exact hc
  have hrr : e.rowIndex < s.resultPositions.length := by rw [h2]; exact hr
  have hrc : e.columnIndex < (s.resultPositions.getD e.rowIndex []).length := by
    rw [(h3 _ hr).2.1]; exact hc
  unfold pushCell
  rw [setZ_of_length_le _ _ _ (by rw [((h3 _ hr).2.2 _ hc).1]; omega),
      setZ_of_length_le _ _ _ (by rw [((h3 _ hr).2.2 _ hc).2]; omega)]
  rw [setTile_tileAt_self _ _ _ hsr hsc, setTile_tileAt_self _ _ _ hrr hrc]

/-!
Lemmas about initialization.
-/

lemma tileAt_handleInit (s : WorkerState) (d : InitData) (R C : ℕ)
    (hR : R < d.subdivisionRows) (hC : C < d.subdivisionColumns) :
    tileAt (handleInit s d).sourcePositions R C = d.vertexPositionTemplate ∧
    tileAt (handleInit s d).resultPositions R C = d.vertexPositionTemplate := by
  unfold handleInit tileAt
  dsimp only
  have hl1 : R < (List.replicate d.subdivisionRows
      (List.replicate d.subdivisionColumns d.vertexPositionTemplate)).length := by
    rw [List.length_replicate]
    exact hR
  have hl2 : C < (List.replicate d.subdivisionColumns d.vertexPositionTemplate).length := by
    rw [List.length_replicate]
    exact hC
  constructor <;>
  · rw [getD_of_lt _ _ _ hl1, List.getElem_replicate,
      getD_of_lt _ _ _ hl2, List.getElem_replicate]

/-!
The claims.
-/

lemma adjacentTotal_eq_specNeighborSum (s : WorkerState)
    (hsq : s.rowsPerSubdivision = s.columnsPerSubdivision) (R C i : ℕ) :
    adjacentTotal s R C i = SpecModel.neighborSum s R C i := by
  unfold adjacentTotal SpecModel.neighborSum
    aboveContribution SpecModel.aboveDepth
    belowContribution SpecModel.belowDepth
    leftContribution SpecModel.leftDepth
    rightContribution SpecModel.rightDepth
    relativeColumnIdx SpecModel.relativeColumnIdx relativeRowIdx
  rw [hsq]

lemma clamp_damp_bounds (lo hi d x : ℚ) (hlo : lo ≤ 0) (hhi : 0 ≤ hi)
    (hd0 : 0 ≤ d) (hd1 : d ≤ 1) :
    lo ≤ min hi (max lo x) * d ∧ min hi (max lo x) * d ≤ hi := by
  have hc1 : lo ≤ min hi (max lo x) := le_min (hlo.trans hhi) (le_max_left lo x)
  have hc2 : min hi (max lo x) ≤ hi := min_le_left hi (max lo x)
  rcases le_or_lt 0 (min hi (max lo x)) with hc0 | hc0
  · constructor
    · nlinarith
    · nlinarith
  · constructor
    · nlinarith
    · nlinarith

/-- C1 counterexample: on the initialized non-reset 2-row × 3-column grid
`c4State`, the specification's neighbor sum of cell 2 is the sum of its true
row-major neighbors (cells 5 and 1, giving 6), but the sweep does not store
`clamp(6 / 2 - result[2]) * damping = 1`: because of the line-142 column
slip it stores 2 (its `adjacentTotal` reads non-adjacent cell 3 instead of
cell 1), refuting the claim's per-cell formula for non-square tiles inside
the claim's "every initialized grid" domain. -/
theorem sweep_neighbor_sum_counterexample :
    WellFormed c4State ∧ c4State.resetRequested = false ∧
    SpecModel.neighborSum c4State 0 0 2
      = getZ (tileAt c4State.sourcePositions 0 0) 5
        + getZ (tileAt c4State.sourcePositions 0 0) 1 ∧
    getZ (tileAt (propagate c4State).resultPositions 0 0) 2
      ≠ min c4State.maxVertexDepth (max c4State.minVertexDepth
          (SpecModel.neighborSum c4State 0 0 2 / 2
            - getZ (tileAt c4State.resultPositions 0 0) 2))
        * c4State.waveDampingFactor := by
  with_unfolding_all decide

/-- C1 (amended): for every initialized (well-formed) grid with no reset
pending whose tiles are square (`rowsPerSubdivision = columnsPerSubdivision`,
true of every shipped configuration), one propagation pass leaves every
source buffer untouched and stores at every cell of every tile exactly
`clamp(S / 2 - result[cell]) * damping`, where `S` is the specification's sum
of the up-to-four row-major neighbor depths (cross-tile neighbors through
the adjacent tile's mirrored edge cell, edge tiles omitting missing
neighbors) and both `S` and `result[cell]` are evaluated in the pre-sweep
state: the sequential in-place sweep is observably a single atomic update of
the whole grid, and no buffer roles are exchanged before it completes. On
non-square tiles the line-142 column slip reads a different cell set — the
counterexample above and C4. -/
theorem sweep_is_atomic_update (s : WorkerState)
    (hwf : WellFormed s) (hreset : s.resetRequested = false)
    (hsq : s.rowsPerSubdivision = s.columnsPerSubdivision) :
    (propagate s).sourcePositions = s.sourcePositions ∧
    ∀ R < s.subdivisionRows, ∀ C < s.subdivisionColumns, ∀ i < vertexCount s,
      getZ (tileAt (propagate s).resultPositions R C) i
        = min s.maxVertexDepth (max s.minVertexDepth
            (SpecModel.neighborSum s R C i / 2 - getZ (tileAt s.resultPositions R C) i))
          * s.waveDampingFactor := by
  refine ⟨propagate_source_nonreset s hreset hwf, ?_⟩
  intro R hR C hC i hi
  rw [propagate_getZ_nonreset s hreset hwf R C i hR hC hi]
  unfold newCellZ cellFormula
  rw [adjacentTotal_eq_specNeighborSum s hsq]

/-- Witness for the amended C1 at the drained kick scenario (a square 4×4
tile), cell 5 of the single tile. -/
theorem sweep_is_atomic_update_witness :
    WellFormed kickDrained ∧ kickDrained.resetRequested = false ∧
    kickDrained.rowsPerSubdivision = kickDrained.columnsPerSubdivision ∧
    getZ (tileAt (propagate kickDrained).resultPositions 0 0) 5
      = min kickDrained.maxVertexDepth (max kickDrained.minVertexDepth
          (SpecModel.neighborSum kickDrained 0 0 5 / 2
            - getZ (tileAt kickDrained.resultPositions 0 0) 5))
        * kickDrained.waveDampingFactor :=
  ⟨by with_unfolding_all decide, by with_unfolding_all decide,
    by with_unfolding_all decide,
    (sweep_is_atomic_update kickDrained (by with_unfolding_all decide)
        (by with_unfolding_all decide) (by with_unfolding_all decide)).2
      0 (by with_unfolding_all decide) 0 (by with_unfolding_all decide)
      5 (by with_unfolding_all decide)⟩

/-- C2 counterexample: with the initialized configuration `badBoundsState`
(depth bounds `[2, 4]`, damping 0.9, all cells at the baseline 3), the very
first completed sweep stores a depth strictly below `MIN_DEPTH`, refuting the
claim for arbitrary configurations. -/
theorem depth_bounds_counterexample :
    badBoundsState.resetRequested = false ∧
    WellFormed badBoundsState ∧
    getZ (tileAt (propagate badBoundsState).resultPositions 0 0) 0
      < badBoundsState.minVertexDepth := by
  with_unfolding_all decide

/-- C2 (amended): provided the configuration satisfies
`MIN_DEPTH ≤ 0 ≤ MAX_DEPTH` and `0 ≤ dampingFactor ≤ 1` (true of every
shipped configuration) and the base depth is the midpoint derived at `init`,
every cell value produced by a completed sweep — the newly computed buffer
that becomes the readable state — lies in `[MIN_DEPTH, MAX_DEPTH]`, for every
prior state and hence after every sequence of disturbances and sweeps. -/
theorem depth_bounds_after_sweep (s : WorkerState) (hwf : WellFormed s)
    (hbase : s.baseVertexDepth = s.minVertexDepth + (s.maxVertexDepth - s.minVertexDepth) / 2)
    (hmin : s.minVertexDepth ≤ 0) (hmax : 0 ≤ s.maxVertexDepth)
    (hd0 : 0 ≤ s.waveDampingFactor) (hd1 : s.waveDampingFactor ≤ 1) :
    ∀ R < s.subdivisionRows, ∀ C < s.subdivisionColumns, ∀ i < vertexCount s,
      s.minVertexDepth ≤ getZ (tileAt (propagate s).resultPositions R C) i ∧
      getZ (tileAt (propagate s).resultPositions R C) i ≤ s.maxVertexDepth := by
  intro R hR C hC i hi
  cases hres : s.resetRequested with
  | false =>
    rw [propagate_getZ_nonreset s hres hwf R C i hR hC hi]
    unfold newCellZ cellFormula
    exact clamp_damp_bounds s.minVertexDepth s.maxVertexDepth s.waveDampingFactor
      _ hmin hmax hd0 hd1
  | true =>
    rw [(propagate_getZ_reset s hres hwf R C i hR hC hi).2, hbase]
    constructor
    · linarith
    · linarith

/-- Witness for the amended C2 at the drained kick scenario, cell 5. -/
theorem depth_bounds_after_sweep_witness :
    WellFormed kickDrained ∧
    kickDrained.baseVertexDepth
      = kickDrained.minVertexDepth
        + (kickDrained.maxVertexDepth - kickDrained.minVertexDepth) / 2 ∧
    (kickDrained.minVertexDepth ≤ getZ (tileAt (propagate kickDrained).resultPositions 0 0) 5 ∧
     getZ (tileAt (propagate kickDrained).resultPositions 0 0) 5 ≤ kickDrained.maxVertexDepth) :=
  ⟨by with_unfolding_all decide, by with_unfolding_all decide,
    depth_bounds_after_sweep kickDrained (by with_unfolding_all decide) (by with_unfolding_all decide) (by with_unfolding_all decide)
      (by with_unfolding_all decide) (by with_unfolding_all decide) (by with_unfolding_all decide) 0 (by with_unfolding_all decide) 0 (by with_unfolding_all decide) 5 (by with_unfolding_all decide)⟩

/-- C3 counterexample: in the JS-number model of the sweep core, a source
buffer holding NaN at a neighbor cell (adversarial template) makes the
computed update value of cell 0 NaN, and line 203 stores that NaN into the
result buffer unchanged — it is not replaced by the baseline depth. There is
no NaN check anywhere in `handleReady`. -/
theorem nan_stored_counterexample :
    JSF.newCellZ nanDemoState 0 0 0 = JSF.JSVal.nan ∧
    JSF.getZ (JSF.tileAt (JSF.propagateCell nanDemoState 0 0 0).resultPositions 0 0) 0
      = JSF.JSVal.nan ∧
    JSF.JSVal.nan ≠ JSF.JSVal.num nanDemoState.baseVertexDepth := by
  with_unfolding_all decide

/-- C3 (amended): a not-a-number intermediate is propagated, not recovered:
whenever `adjacentTotal / 2 - result[cell]` is NaN, the value the sweep stores
(after the `Math.min`/`Math.max` clamp and damping of lines 199-203) is NaN
itself, never the baseline depth. -/
theorem nan_propagates_through_clamp (damping minDepth maxDepth : ℚ)
    (a r : JSF.JSVal) (h : JSF.jsSub (JSF.jsDiv2 a) r = JSF.JSVal.nan) :
    JSF.jsStored damping minDepth maxDepth a r = JSF.JSVal.nan := by
  unfold JSF.jsStored
  rw [h]
  rfl

/-- Witness for the amended C3: a NaN neighbor sum against a zero result cell. -/
theorem nan_propagates_through_clamp_witness :
    JSF.jsSub (JSF.jsDiv2 JSF.JSVal.nan) (JSF.JSVal.num 0) = JSF.JSVal.nan ∧
    JSF.jsStored (9 / 10) (-1) 1 JSF.JSVal.nan (JSF.JSVal.num 0) = JSF.JSVal.nan :=
  ⟨by with_unfolding_all decide, nan_propagates_through_clamp (9 / 10) (-1) 1 JSF.JSVal.nan
    (JSF.JSVal.num 0) (by with_unfolding_all decide)⟩

/-- C4: line 142 computes the within-tile column as
`vertexIdx % rowsPerSubdivision`, not `vertexIdx % columnsPerSubdivision` as
the row-major layout used by every other index computation of the same loop
requires. On a 2-row × 3-column tile, cell 2 (row 0, column 2, the top-right
corner) gets computed column `2 % 2 = 0` instead of `2 % 3 = 2`; the sweep
therefore omits its true left neighbor (cell 1) and reads cell 3 — the start
of the next row, not a neighbor — as its "right neighbor", so its neighbor sum
is `z5 + z3 = 8` instead of the row-major `z5 + z1 = 6`. -/
theorem column_decomposition_bug :
    c4State.rowsPerSubdivision = 2 ∧
    c4State.columnsPerSubdivision = 3 ∧
    relativeColumnIdx c4State 2 = 0 ∧
    2 % c4State.columnsPerSubdivision = 2 ∧
    leftContribution c4State 0 0 2 = 0 ∧
    rightContribution c4State 0 0 2 = getZ (tileAt c4State.sourcePositions 0 0) 3 ∧
    getZ (tileAt c4State.sourcePositions 0 0) 1 = 1 ∧
    getZ (tileAt c4State.sourcePositions 0 0) 3 = 3 ∧
    adjacentTotal c4State 0 0 2 = 8 ∧
    adjacentTotal c4State 0 0 2
      ≠ getZ (tileAt c4State.sourcePositions 0 0) 5
        + getZ (tileAt c4State.sourcePositions 0 0) 1 := by
  with_unfolding_all decide

/-- C5: for every state configured as a 2×1 subdivision grid of 4×4 tiles,
the downward lookup of bottom-row cell (3,2) — linear index 14 — of tile
(0,0) reads exactly the stored source depth of cell (0,2) — linear index 2 —
of tile (1,0), and the upward lookup of that cell reads exactly the stored
source depth of cell 14 of tile (0,0): the two cross-tile lookups are
reciprocal. -/
theorem tile_boundary_reciprocity (s : WorkerState)
    (h1 : s.subdivisionRows = 2) (_h2 : s.subdivisionColumns = 1)
    (h3 : s.rowsPerSubdivision = 4) (h4 : s.columnsPerSubdivision = 4) :
    belowContribution s 0 0 14 = getZ (tileAt s.sourcePositions 1 0) 2 ∧
    aboveContribution s 1 0 2 = getZ (tileAt s.sourcePositions 0 0) 14 := by
  unfold belowContribution aboveContribution relativeRowIdx
  rw [h1, h3, h4]
  constructor
  · rw [if_neg (by decide), if_pos (by decide)]
  · rw [if_neg (by decide), if_pos (by decide)]

/-- Witness for C5 at a concrete 2×1 grid whose two tiles carry the values
`j` (tile (0,0)) and `100 + j` (tile (1,0)): the lookups read 102 and 14. -/
theorem tile_boundary_reciprocity_witness :
    c5State.subdivisionRows = 2 ∧ c5State.subdivisionColumns = 1 ∧
    c5State.rowsPerSubdivision = 4 ∧ c5State.columnsPerSubdivision = 4 ∧
    (belowContribution c5State 0 0 14 = getZ (tileAt c5State.sourcePositions 1 0) 2 ∧
     aboveContribution c5State 1 0 2 = getZ (tileAt c5State.sourcePositions 0 0) 14) :=
  ⟨by with_unfolding_all decide, by with_unfolding_all decide, by with_unfolding_all decide, by with_unfolding_all decide,
    tile_boundary_reciprocity c5State (by with_unfolding_all decide) (by with_unfolding_all decide) (by with_unfolding_all decide) (by with_unfolding_all decide)⟩

/-- C6: with no reset pending, draining applies every pending unique push by
setting that cell's source depth to `MIN_DEPTH` and its result depth to
`MAX_DEPTH`; and in the concrete §8 kick scenario (1-tile 4×4 grid at
baseline 0, bounds ±1, damping 0.9, one push at cell 5), the drained
pre-sweep state reads source `-1` and result `1` at cell 5, and after the
sweep the four neighbors 1, 4, 6, 9 are nonzero while far cell 15 is exactly
0. -/
theorem push_sets_min_max_and_kick (s : WorkerState)
    (hreset : s.resetRequested = false) (hwf : WellFormed s)
    (hin : ∀ e ∈ s.pendingPointerEvents,
      e.rowIndex < s.subdivisionRows ∧ e.columnIndex < s.subdivisionColumns ∧
      e.vertexIndex < vertexCount s)
    (hnd : s.pendingPointerEvents.Nodup) :
    (∃ s2, drainPointerEvents s = some s2 ∧
      ∀ e ∈ s.pendingPointerEvents,
        getZ (tileAt s2.sourcePositions e.rowIndex e.columnIndex) e.vertexIndex
          = s.minVertexDepth ∧
        getZ (tileAt s2.resultPositions e.rowIndex e.columnIndex) e.vertexIndex
          = s.maxVertexDepth) ∧
    (drainPointerEvents kickState = some kickDrained ∧
     getZ (tileAt kickDrained.sourcePositions 0 0) 5 = -1 ∧
     getZ (tileAt kickDrained.resultPositions 0 0) 5 = 1 ∧
     getZ (tileAt (propagate kickDrained).resultPositions 0 0) 1 ≠ 0 ∧
     getZ (tileAt (propagate kickDrained).resultPositions 0 0) 4 ≠ 0 ∧
     getZ (tileAt (propagate kickDrained).resultPositions 0 0) 6 ≠ 0 ∧
     getZ (tileAt (propagate kickDrained).resultPositions 0 0) 9 ≠ 0 ∧
     getZ (tileAt (propagate kickDrained).resultPositions 0 0) 15 = 0) := by
  constructor
  · obtain ⟨s2, hd, hsh, hr2, he2, hvals⟩ :=
      drainPointerEvents_spec s hreset hwf
        (fun e he => ⟨(hin e he).1, (hin e he).2.1⟩) hnd
    exact ⟨s2, hd, fun e he => hvals e he (hin e he).2.2⟩
  · with_unfolding_all decide

/-- Witness for C6 at the kick scenario: the single pending push of
`kickState` is applied to cell 5. -/
theorem push_sets_min_max_and_kick_witness :
    kickState.resetRequested = false ∧ WellFormed kickState ∧
    (getZ (tileAt kickDrained.sourcePositions 0 0) 5 = kickState.minVertexDepth ∧
     getZ (tileAt kickDrained.resultPositions 0 0) 5 = kickState.maxVertexDepth) := by
  refine ⟨by with_unfolding_all decide, by with_unfolding_all decide, ?_⟩
  obtain ⟨s2, hd, hvals⟩ :=
    (push_sets_min_max_and_kick kickState (by with_unfolding_all decide) (by with_unfolding_all decide) (by with_unfolding_all decide)
      (by with_unfolding_all decide)).1
  have hs2 : kickDrained = s2 := by
    unfold kickDrained
    rw [hd]
    rfl
  rw [hs2]
  exact hvals ⟨0, 0, 5⟩ (by with_unfolding_all decide)

/-- C7: when a reset is pending at drain time the drain discards every
pending push (the queue is already empty and stays empty), the sweep then
sets every cell of every tile's source and result buffers to the baseline
depth, and `handleReset` is idempotent: enqueueing `Reset` twice before a
single drain produces exactly the same state as enqueueing it once. -/
theorem reset_clears_to_baseline (s : WorkerState) (hwf : WellFormed s)
    (hreset : s.resetRequested = true) :
    drainPointerEvents s = some { s with pendingPointerEvents := [] } ∧
    (∀ R < s.subdivisionRows, ∀ C < s.subdivisionColumns, ∀ i < vertexCount s,
      getZ (tileAt (propagate s).sourcePositions R C) i = s.baseVertexDepth ∧
      getZ (tileAt (propagate s).resultPositions R C) i = s.baseVertexDepth) ∧
    handleReset (handleReset s) = handleReset s :=
  ⟨drainPointerEvents_reset s hreset,
   fun R hR C hC i hi => propagate_getZ_reset s hreset hwf R C i hR hC hi,
   rfl⟩

/-- Witness for C7: resetting the kick scenario drives cell 5 (and its tile)
back to the baseline depth in both buffers. -/
theorem reset_clears_to_baseline_witness :
    WellFormed (handleReset kickState) ∧
    (handleReset kickState).resetRequested = true ∧
    (getZ (tileAt (propagate (handleReset kickState)).sourcePositions 0 0) 5
        = (handleReset kickState).baseVertexDepth ∧
     getZ (tileAt (propagate (handleReset kickState)).resultPositions 0 0) 5
        = (handleReset kickState).baseVertexDepth) :=
  ⟨by with_unfolding_all decide, by with_unfolding_all decide,
    (reset_clears_to_baseline (handleReset kickState) (by with_unfolding_all decide) (by with_unfolding_all decide)).2.1
      0 (by with_unfolding_all decide) 0 (by with_unfolding_all decide) 5 (by with_unfolding_all decide)⟩

/-- C8 counterexample: a `Disturb` naming subdivision row 5 of a 1×1
subdivision grid is not discarded silently — draining it throws (the JS
lookup `state.sourcePositions[5][0]` is a `TypeError` on `undefined`,
modelled as `none`), refuting the claim that every out-of-range event leaves
the engine error-free. -/
theorem oob_tile_disturb_faults :
    drainPointerEvents oobTileState = none := by
  rfl

/-- C8 (amended): only an out-of-range cell index is discarded silently:
for every well-formed state with no reset and no other pending events, a
`Disturb` whose tile indices are in range but whose `cellIndex` is at or
beyond `vertexCount` drains without error and leaves every buffer unchanged
(the out-of-range typed-array store is a no-op); events with out-of-range
tile row or column instead fault at drain time. -/
theorem oob_cell_disturb_silent (s : WorkerState) (e : PointerEvent)
    (hwf : WellFormed s) (hreset : s.resetRequested = false)
    (hempty : s.pendingPointerEvents = [])
    (hr : e.rowIndex < s.subdivisionRows) (hc : e.columnIndex < s.subdivisionColumns)
    (hv : vertexCount s ≤ e.vertexIndex) :
    drainPointerEvents (handlePointer s e) = some { s with pendingPointerEvents := [] } := by
  have hp : handlePointer s e = { s with pendingPointerEvents := [e] } := by
    unfold handlePointer
    rw [hreset, hempty]
    simp
  have hin2 : InRangeTile { s with pendingPointerEvents := [e] } e := by
    obtain ⟨h1, h2, h3⟩ := hwf
    exact ⟨by dsimp only; rw [h1]; exact hr,
           by dsimp only; rw [(h3 _ hr).1]; exact hc,
           by dsimp only; rw [h2]; exact hr,
           by dsimp only; rw [(h3 _ hr).2.1]; exact hc⟩
  rw [hp, drainPointerEvents_nonreset { s with pendingPointerEvents := [e] } hreset]
  dsimp only
  rw [List.foldlM_cons, applyPointerEvent_eq { s with pendingPointerEvents := [e] } e hin2]
  rw [pushCell_noop { s with pendingPointerEvents := [e] } e hwf hr hc hv]
  simp

/-- Witness for the amended C8: a push at cell 99 of the 16-cell kick grid is
drained silently with no change. -/
theorem oob_cell_disturb_silent_witness :
    WellFormed freshKickState ∧ freshKickState.resetRequested = false ∧
    freshKickState.pendingPointerEvents = [] ∧
    vertexCount freshKickState ≤ 99 ∧
    drainPointerEvents (handlePointer freshKickState ⟨0, 0, 99⟩)
      = some { freshKickState with pendingPointerEvents := [] } :=
  ⟨by with_unfolding_all decide, by with_unfolding_all decide, by with_unfolding_all decide, by with_unfolding_all decide,
    oob_cell_disturb_silent freshKickState ⟨0, 0, 99⟩ (by with_unfolding_all decide) (by with_unfolding_all decide)
      (by with_unfolding_all decide) (by with_unfolding_all decide) (by with_unfolding_all decide) (by with_unfolding_all decide)⟩

/-- C9 counterexample: `handleInit` performs no size validation. With a
3-float template declared as a 2×2 (12-float) tile, initialization completes,
allocates 3-float buffers inconsistent with the declared dimensions, and a
subsequent `ReadyForNext` still runs and posts a result — the engine does not
refuse to proceed. -/
theorem mismatched_init_proceeds :
    badSizeInit.vertexPositionTemplate.length = 3 ∧
    3 * (badSizeInit.rowsPerSubdivision * badSizeInit.columnsPerSubdivision) = 12 ∧
    (tileAt (handleInit initialState badSizeInit).sourcePositions 0 0).length = 3 ∧
    (handleReady (handleInit initialState badSizeInit)).isSome = true := by
  with_unfolding_all decide

/-- C9 (amended): initialization never fails: for every `Init` payload,
whatever the template length, every tile of both buffers is allocated as a
verbatim copy of the template, and the engine proceeds. -/
theorem init_copies_template_unconditionally (d : InitData) (R C : ℕ)
    (hR : R < d.subdivisionRows) (hC : C < d.subdivisionColumns) :
    tileAt (handleInit initialState d).sourcePositions R C = d.vertexPositionTemplate ∧
    tileAt (handleInit initialState d).resultPositions R C = d.vertexPositionTemplate :=
  tileAt_handleInit initialState d R C hR hC

/-- Witness for the amended C9 at the mismatched configuration. -/
theorem init_copies_template_witness :
    0 < badSizeInit.subdivisionRows ∧ 0 < badSizeInit.subdivisionColumns ∧
    (tileAt (handleInit initialState badSizeInit).sourcePositions 0 0
        = badSizeInit.vertexPositionTemplate ∧
     tileAt (handleInit initialState badSizeInit).resultPositions 0 0
        = badSizeInit.vertexPositionTemplate) :=
  ⟨by with_unfolding_all decide, by with_unfolding_all decide,
    init_copies_template_unconditionally badSizeInit 0 0 (by with_unfolding_all decide) (by with_unfolding_all decide)⟩

/-- C10: a `ReadyForNext` received before any `Init` does not fault: on the
pristine state (zero subdivision rows and columns, no pending events) the
drain and sweep loops iterate zero times and the engine still posts a
`result` message whose per-tile position and color arrays are both empty. -/
theorem ready_before_init_safe :
    (handleReady initialState).isSome = true ∧
    (handleReady initialState).map (fun out => out.2.vertexPositions) = some [] ∧
    (handleReady initialState).map (fun out => out.2.vertexColors) = some [] := by
  with_unfolding_all decide

end WaveWorker
